import Mathlib

/-!
Verification of the proxy speed-test endpoint (`/api/speed-test.js`).

The repository holds two revisions of the same serverless endpoint; the later
revision (`src/unnamed/part_000`) is the one whose behaviour the design
document describes, so the definitions below are a shallow embedding of that
file.  JavaScript strings are Lean `String`s, JS string primitives
(`split`, `trim`, `includes`, `startsWith`, `toLowerCase`, …) are modelled by
structurally recursive functions on `List Char`, the regular expressions of
the source are compiled by hand into decidable predicates, the process-wide
`lookupCache` `Map` is an association list threaded through each call, and
the two outbound `fetch` calls are oracles (`Option` values: `none` models a
network failure, a non-2xx status or unparsable JSON, all of which the source
swallows identically).  `Date.now()` is a `Nat` parameter fixed per
invocation.
-/

namespace ProxySpeedTest

/-! ### JS string primitives, modelled on `List Char` -/

/-- Model of JS `String.prototype.startsWith`, as a prefix test on char lists. -/
def isPfx : List Char → List Char → Bool
  | [], _ => true
  | _ :: _, [] => false
  | p :: ps, c :: cs => p == c && isPfx ps cs

/-- Model of JS `String.prototype.includes`: `pat` occurs somewhere in `hay`. -/
def listContains (hay pat : List Char) : Bool :=
  if isPfx pat hay then true
  else
    match hay with
    | [] => false
    | _ :: t => listContains t pat

/-- String wrapper for `isPfx` (JS `s.startsWith(pre)`). -/
def strStarts (s pre : String) : Bool := isPfx pre.data s.data

/-- String wrapper for `listContains` (JS `s.includes(sub)`). -/
def strContains (s sub : String) : Bool := listContains s.data sub.data

/-- ASCII lower-casing of one char (the fragment of JS `toLowerCase` our
strings exercise). -/
def charLower (c : Char) : Char :=
  if 'A' ≤ c ∧ c ≤ 'Z' then Char.ofNat (c.toNat + 32) else c

/-- ASCII upper-casing of one char (fragment of JS `toUpperCase`). -/
def charUpper (c : Char) : Char :=
  if 'a' ≤ c ∧ c ≤ 'z' then Char.ofNat (c.toNat - 32) else c

/-- Model of JS `String.prototype.toLowerCase` (ASCII fragment). -/
def jsToLower (s : String) : String := ⟨s.data.map charLower⟩

/-- Model of JS `String.prototype.toUpperCase` (ASCII fragment). -/
def jsToUpper (s : String) : String := ⟨s.data.map charUpper⟩

/-- Split a char list at every occurrence of `sep` (JS `split` never returns
an empty list: an empty input yields `[[]]`). -/
def splitOnChar (sep : Char) : List Char → List (List Char)
  | [] => [[]]
  | c :: cs =>
    let rest := splitOnChar sep cs
    if c == sep then [] :: rest
    else
      match rest with
      | [] => [[c]]
      | r :: rs => (c :: r) :: rs

/-- Model of JS `s.split(',')`. -/
def jsSplitComma (s : String) : List String :=
  (splitOnChar ',' s.data).map (fun l => ⟨l⟩)

/-- The whitespace class trimmed by JS `String.prototype.trim`. -/
def isJsSpace (c : Char) : Bool :=
  c == ' ' || c == '\t' || c == '\n' || c == '\r' || c == '\x0b' || c == '\x0c'

/-- Model of JS `String.prototype.trim`. -/
def jsTrim (s : String) : String :=
  ⟨((s.data.dropWhile isJsSpace).reverse.dropWhile isJsSpace).reverse⟩

/-- Model of the JS falsy-chaining idiom `a || b` on strings (empty string is
falsy; `null`/`undefined` operands are modelled as `""`). -/
def jsOr (a b : String) : String := if a = "" then b else a

/-- Model of `.replace(/^::ffff:/, '')` (case-sensitive, anchored, one shot). -/
def stripFfff (s : String) : String :=
  if strStarts s "::ffff:" then ⟨s.data.drop 7⟩ else s

/-! ### The private-address regular expression

Source line 11:
`const PRIVATE_RE = /^(::ffff:)?(?:10\.|172\.(1[6-9]|2\d|3[0-1])\.|192\.168\.|127\.|::1\b)/i;`
-/

/-- JS `\w` word-character class (ASCII `[A-Za-z0-9_]`; the regex is not
Unicode-aware). -/
def isWordChar (c : Char) : Bool := c.isAlpha || c.isDigit || c == '_'

/-- Drop a literal pattern from the front of a char list, comparing
case-insensitively (the regex carries the `i` flag). -/
def dropPfxCI : List Char → List Char → Option (List Char)
  | [], cs => some cs
  | _ :: _, [] => none
  | p :: ps, c :: cs => if charLower p == charLower c then dropPfxCI ps cs else none

/-- The alternative `172\.(1[6-9]|2\d|3[0-1])\.` of `PRIVATE_RE`. -/
def priv172 (cs : List Char) : Bool :=
  match dropPfxCI "172.".data cs with
  | none => false
  | some rest =>
    match rest with
    | '1' :: d :: '.' :: _ => '6' ≤ d && d ≤ '9'
    | '2' :: d :: '.' :: _ => d.isDigit
    | '3' :: d :: '.' :: _ => d == '0' || d == '1'
    | _ => false

/-- The alternative `::1\b` of `PRIVATE_RE`: literal `::1` followed by a word
boundary (end of input or a non-word character). -/
def privColon1 (cs : List Char) : Bool :=
  match dropPfxCI "::1".data cs with
  | none => false
  | some [] => true
  | some (c :: _) => !isWordChar c

/-- The inner alternation `(?:10\.|172\.…|192\.168\.|127\.|::1\b)` of
`PRIVATE_RE`, anchored at the head of the list. -/
def privCore (cs : List Char) : Bool :=
  (dropPfxCI "10.".data cs).isSome ||
  priv172 cs ||
  (dropPfxCI "192.168.".data cs).isSome ||
  (dropPfxCI "127.".data cs).isSome ||
  privColon1 cs

/-- `PRIVATE_RE.test s`: the optional `(::ffff:)?` group, then the core
alternation (regex backtracking makes the group genuinely optional). -/
def privateReTest (s : String) : Bool :=
  privCore s.data ||
  (match dropPfxCI "::ffff:".data s.data with
   | some rest => privCore rest
   | none => false)

/-- Source `isPrivate` (lines 208–211): `if (!addr) return false; return
PRIVATE_RE.test(String(addr));`. -/
def isPrivate (addr : String) : Bool :=
  if addr = "" then false else privateReTest addr

/-! ### Constants of the source -/

/-- Source `HOSTING_PROVIDERS` (lines 6–9). -/
def HOSTING_PROVIDERS : List String :=
  ["amazon", "aws", "digitalocean", "linode", "google", "google cloud",
   "microsoft", "azure", "hetzner", "ovh", "cloudflare", "vultr", "dreamhost"]

/-- Source `PROXY_HEADERS` (line 12). -/
def PROXY_HEADERS : List String :=
  ["x-forwarded-for", "x-forwarded-host", "via", "x-real-ip", "forwarded",
   "x-forwarded-proto"]

/-- The alternatives of the scripted-client regex
`/curl|wget|python-requests|httpclient|postman|libhttp|okhttp|node-fetch/`
(line 119); the regex is unanchored, so a test is substring containment. -/
def SCRIPTED_UA_SUBSTRINGS : List String :=
  ["curl", "wget", "python-requests", "httpclient", "postman", "libhttp",
   "okhttp", "node-fetch"]

/-! ### The speed rating (source lines 45–52) -/

/-- One tier of the rating table. -/
structure Rating where
  level : String
  score : Nat
  emoji : String
  recStr : String
deriving DecidableEq, Repr

/-- Source `rating` IIFE: six ordered tiers by strict upper bounds on the
elapsed milliseconds. -/
def rating (rtMs : Nat) : Rating :=
  if rtMs < 50 then ⟨"SUPER FAST", 100, "⚡", "Perfect for realtime"⟩
  else if rtMs < 100 then ⟨"VERY FAST", 90, "🚀", "Great for streaming"⟩
  else if rtMs < 200 then ⟨"FAST", 75, "✨", "Good for browsing"⟩
  else if rtMs < 400 then ⟨"NORMAL", 60, "👍", "Average"⟩
  else if rtMs < 800 then ⟨"SLOW", 40, "🐌", "Check network/proxy"⟩
  else ⟨"VERY SLOW", 20, "🐢", "Optimize network"⟩

example : rating 49 = ⟨"SUPER FAST", 100, "⚡", "Perfect for realtime"⟩ := by decide

example : isPrivate "10.0.0.5" = true := by decide
example : isPrivate "::ffff:192.168.1.2" = true := by decide
example : isPrivate "::FFFF:172.31.0.1" = true := by decide
example : isPrivate "172.32.0.1" = false := by decide
example : isPrivate "203.0.113.5" = false := by decide
example : isPrivate "::1" = true := by decide
example : isPrivate "::10" = false := by decide
example : isPrivate "127.0.0.1" = true := by decide
example : isPrivate "" = false := by decide
example : isPrivate "10.banana" = true := by decide

example : jsSplitComma "10.0.0.5, 203.0.113.5" = ["10.0.0.5", " 203.0.113.5"] := by decide
example : jsTrim " 203.0.113.5" = "203.0.113.5" := by decide
example : strContains (jsToLower "proxycheck:VPN") "vpn" = true := by decide

/-! ### The lookup cache (source lines 14–24)

`lookupCache` is a process-wide `Map` from string keys to
`{ value, expiresAt }`.  The two kinds of values it ever holds are the
proxycheck summary object and the raw ipinfo JSON. -/

/-- The object `{ isProxy, reasons, flag }` stored under a `proxycheck:` key
(source line 157). -/
structure PCCached where
  isProxy : Bool
  reasons : List String
  flag : Option String
deriving DecidableEq, Repr

/-- The fields of the ipinfo JSON the source ever reads (`ip`, `org`,
`country`); `none` models an absent field. -/
structure IpinfoJson where
  ip : Option String
  org : Option String
  country : Option String
deriving DecidableEq, Repr

/-- A value held in `lookupCache`. -/
inductive CacheValue
  | pc (c : PCCached)
  | ii (j : IpinfoJson)
deriving DecidableEq, Repr

/-- A `lookupCache` entry `{ value, expiresAt }`. -/
structure CacheEntry where
  value : CacheValue
  expiresAt : Nat
deriving DecidableEq, Repr

/-- The `lookupCache` `Map`, as an association list (keys unique). -/
abbrev Cache := List (String × CacheEntry)

/-- `Map.get`-style first-match lookup. -/
def cacheFind (key : String) : Cache → Option CacheEntry
  | [] => none
  | (k, e) :: rest => if k = key then some e else cacheFind key rest

/-- `Map.delete`. -/
def cacheDelete (key : String) (c : Cache) : Cache :=
  c.filter (fun p => !(p.1 = key : Bool))

/-- Source `cacheSet` (lines 16–18): `lookupCache.set(key, { value,
expiresAt: Date.now() + ttlMs })`. -/
def cacheSet (key : String) (v : CacheValue) (ttlMs : Nat) (now : Nat) (c : Cache) : Cache :=
  (key, { value := v, expiresAt := now + ttlMs }) :: cacheDelete key c

/-- Source `cacheGet` (lines 19–24): missing entry gives `null`; an entry
whose `expiresAt` lies strictly in the past is deleted and gives `null`;
otherwise the stored value is returned.  The possibly-updated map is
returned alongside. -/
def cacheGet (now : Nat) (key : String) (c : Cache) : Option CacheValue × Cache :=
  match cacheFind key c with
  | none => (none, c)
  | some e => if now > e.expiresAt then (none, cacheDelete key c) else (some e.value, c)

/-- Read a cached value as the proxycheck summary (JS would read `isProxy`,
`reasons`, `flag` off whatever object is stored; absent fields behave as
falsy/empty, which can only happen for a cross-kind key collision that the
key discipline rules out). -/
def CacheValue.asPc : CacheValue → PCCached
  | .pc c => c
  | .ii _ => { isProxy := false, reasons := [], flag := none }

/-- Read a cached value as the ipinfo JSON (the cross-kind case yields an
object with no fields, mirroring JS `undefined` field reads). -/
def CacheValue.asIi : CacheValue → Option IpinfoJson
  | .ii j => some j
  | .pc _ => some { ip := none, org := none, country := none }

/-! ### Inputs, environment and oracles -/

/-- The argument object of `detectProxyOrVpn` (source line 87). -/
structure DetectInput where
  ip : String
  rawXff : String
  headers : List (String × String)
  socketRemote : String
deriving DecidableEq, Repr

/-- The optional environment variables; an empty string is falsy in JS, so
`some ""` behaves like absence. -/
structure Env where
  proxycheckKey : Option String
  ipinfoToken : Option String
deriving DecidableEq, Repr

/-- JS truthiness of an env var. -/
def envTruthy : Option String → Bool
  | some s => !(s = "" : Bool)
  | none => false

/-- The per-IP object of the proxycheck response (`j[ip] || {}`); absent
fields are `none`. -/
structure PCInfo where
  proxy : Option String
  type : Option String
deriving DecidableEq, Repr

/-- The outcome the two `fetch` calls would produce this invocation: `none`
models a thrown error, a non-ok status, or unparsable JSON (all swallowed
identically by the source). -/
structure World where
  pcResp : Option PCInfo
  iiResp : Option IpinfoJson
deriving DecidableEq, Repr

/-- Header lookup (Node lower-cases header names; values are strings). -/
def jsHeaderGet (headers : List (String × String)) (name : String) : Option String :=
  match headers with
  | [] => none
  | (k, v) :: rest => if k = name then some v else jsHeaderGet rest name

/-- JS truthiness of `headers[h]`. -/
def headerTruthy (headers : List (String × String)) (name : String) : Bool :=
  match jsHeaderGet headers name with
  | some s => !(s = "" : Bool)
  | none => false

/-! ### Header heuristics (source lines 96–128) -/

/-- Source line 98: `xff ? xff.split(',').map(s => s.trim()).filter(Boolean) : []`. -/
def xffParts (xff : String) : List String :=
  if xff = "" then []
  else ((jsSplitComma xff).map jsTrim).filter (fun s => !(s = "" : Bool))

/-- The reason tags produced by the header-heuristic stage, in source order:
`xff-multiple` (line 102), `xff-private-to-public` (line 109), `scripted-ua`
(line 120), `proxy-headers:…` (line 127).  The NAT comment block (lines
112–115) contributes nothing. -/
def heurReasons (inp : DetectInput) : List String :=
  let parts := xffParts inp.rawXff
  let r1 := if parts.length > 1 then ["xff-multiple"] else []
  let r2 :=
    if parts.length ≥ 1 ∧ isPrivate (stripFfff (parts.headD "")) = true ∧
        isPrivate (stripFfff (parts.getLastD "")) = false
    then ["xff-private-to-public"] else []
  let ua := jsToLower (jsOr ((jsHeaderGet inp.headers "user-agent").getD "") "")
  let r3 :=
    if !(ua = "" : Bool) && SCRIPTED_UA_SUBSTRINGS.any (fun p => strContains ua p)
    then ["scripted-ua"] else []
  let present := PROXY_HEADERS.filter (fun h => headerTruthy inp.headers h)
  let r4 :=
    if present.length ≠ 0
    then ["proxy-headers:" ++ String.intercalate "," present] else []
  r1 ++ r2 ++ r3 ++ r4

/-! ### External enrichment (source lines 130–187) -/

/-- The reason tag built from one proxycheck response:
`proxycheck:` + (`type.toUpperCase()` or `proxy`). -/
def pcTag (info : PCInfo) : String :=
  let ty := jsToUpper (info.type.getD "")
  "proxycheck:" ++ (if ty = "" then "proxy" else ty)

/-- Result of the proxycheck block. -/
structure PcOut where
  reasons : List String
  flag : Option String
  cache : Cache
  called : Bool
deriving DecidableEq, Repr

/-- The proxycheck block (source lines 134–163).  `if (proxycheckKey || true)`
is always taken, so the block is unconditional; on a cache hit the stored
reasons are replayed (only when the stored `isProxy` is set) and no call is
made; on a miss a call is issued, and only an ok response (`resp = some _`)
derives a tag and populates the cache. -/
def pcStep (ip : String) (resp : Option PCInfo) (now : Nat) (cache : Cache) : PcOut :=
  match cacheGet now ("proxycheck:" ++ ip) cache with
  | (some v, c2) =>
    { reasons := if v.asPc.isProxy then v.asPc.reasons else []
      flag := v.asPc.flag
      cache := c2
      called := false }
  | (none, c2) =>
    match resp with
    | none => { reasons := [], flag := none, cache := c2, called := true }
    | some info =>
      { reasons := if info.proxy = some "yes" then [pcTag info] else []
        flag := if info.proxy = some "yes" then some (pcTag info) else none
        cache := cacheSet ("proxycheck:" ++ ip)
          (CacheValue.pc
            { isProxy := decide (info.proxy = some "yes")
              reasons := if info.proxy = some "yes" then [pcTag info] else []
              flag := if info.proxy = some "yes" then some (pcTag info) else none })
          60000 now c2
        called := true }

/-- The hosting-provider tag derived from an ipinfo JSON (source lines
180–185): requires a truthy `org` whose lower-casing contains one of the
`HOSTING_PROVIDERS` substrings. -/
def hostingReasons (ii : Option IpinfoJson) : List String :=
  match ii with
  | some j =>
    match j.org with
    | some org =>
      if !(org = "" : Bool)
      then if HOSTING_PROVIDERS.any (fun p => strContains (jsToLower org) p)
           then ["hosting-provider:" ++ org] else []
      else []
    | none => []
  | none => []

/-- Result of the ipinfo block. -/
structure IiOut where
  reasons : List String
  ipinfo : Option IpinfoJson
  cache : Cache
  called : Bool
deriving DecidableEq, Repr

/-- The ipinfo block (source lines 165–187): only runs when `IPINFO_TOKEN` is
truthy; a cache hit replays the stored JSON without a call; a miss issues the
call and caches only an ok response. -/
def iiStep (ip : String) (token : Option String) (resp : Option IpinfoJson)
    (now : Nat) (cache : Cache) : IiOut :=
  if envTruthy token then
    match cacheGet now ("ipinfo:" ++ ip) cache with
    | (some v, c2) =>
      { reasons := hostingReasons v.asIi, ipinfo := v.asIi, cache := c2, called := false }
    | (none, c2) =>
      match resp with
      | none => { reasons := [], ipinfo := none, cache := c2, called := true }
      | some j =>
        { reasons := hostingReasons (some j)
          ipinfo := some j
          cache := cacheSet ("ipinfo:" ++ ip) (CacheValue.ii j) 60000 now c2
          called := true }
  else { reasons := [], ipinfo := none, cache := cache, called := false }

/-! ### Verdict composition (source lines 189–205) -/

/-- The predicate of source line 195: a reason qualifies for `isProxy`. -/
def isProxyReason (r : String) : Bool :=
  strStarts r "proxycheck:" || r == "xff-multiple" || r == "xff-private-to-public" ||
  strStarts r "hosting-provider:"

/-- The predicate of source line 197: a reason qualifies for `isVPN`. -/
def isVpnReason (r : String) : Bool :=
  strStarts r "proxycheck:" && strContains (jsToLower r) "vpn"

/-- The `ipinfo` projection of the returned object (source line 203). -/
structure IpinfoOut where
  ip : String
  org : Option String
  country : Option String
deriving DecidableEq, Repr

/-- `ipinfo ? { ip: ipinfo.ip || ip, org: ipinfo.org || null, country:
ipinfo.country || null } : null`. -/
def ipinfoProj (ip : String) (ii : Option IpinfoJson) : Option IpinfoOut :=
  ii.map (fun j =>
    { ip := jsOr (j.ip.getD "") ip
      org := match j.org with
             | some s => if s = "" then none else some s
             | none => none
      country := match j.country with
                 | some s => if s = "" then none else some s
                 | none => none })

/-- The `note` field (source line 204). -/
def noteFor (token : Option String) : String :=
  if envTruthy token then "ipinfo used" else "set IPINFO_TOKEN to check ASN/org"

/-- The object `detectProxyOrVpn` resolves with.  The early `no-ip` return
(line 93) carries no `note` field, hence `note : Option String`. -/
structure DetectOut where
  isProxy : Bool
  isVPN : Bool
  reasons : List String
  ipinfo : Option IpinfoOut
  note : Option String
deriving DecidableEq, Repr

/-- One invocation's full effect: the result, the cache it leaves behind, and
whether each of the two outbound calls was issued. -/
structure StepOut where
  out : DetectOut
  cache : Cache
  pcCalled : Bool
  iiCalled : Bool
deriving DecidableEq, Repr

/-- Source `detectProxyOrVpn` (lines 87–206).  The final booleans are
computed by scanning the accumulated reasons with the two predicates of
lines 195 and 197. -/
def detectProxyOrVpn (inp : DetectInput) (env : Env) (world : World)
    (now : Nat) (cache : Cache) : StepOut :=
  if inp.ip = "" ∨ inp.ip = "unknown" then
    { out := { isProxy := false, isVPN := false, reasons := ["no-ip"],
               ipinfo := none, note := none }
      cache := cache, pcCalled := false, iiCalled := false }
  else
    let rs1 := heurReasons inp
    let pc := pcStep inp.ip world.pcResp now cache
    let ii := iiStep inp.ip env.ipinfoToken world.iiResp now pc.cache
    let reasons := rs1 ++ pc.reasons ++ ii.reasons
    { out := { isProxy := reasons.any isProxyReason
               isVPN := reasons.any isVpnReason
               reasons := reasons
               ipinfo := ipinfoProj inp.ip ii.ipinfo
               note := some (noteFor env.ipinfoToken) }
      cache := ii.cache
      pcCalled := pc.called
      iiCalled := ii.called }

/-! ### The HTTP handler (source lines 26–83) -/

/-- The request metadata the handler reads. -/
structure HandlerReq where
  method : String
  headers : List (String × String)
  socketRemote : Option String
deriving DecidableEq, Repr

/-- The success JSON body (source lines 61–79), flattened. -/
structure SuccessPayload where
  timestamp : String
  speed : String
  score : Nat
  responseTime : String
  emoji : String
  recommendation : String
  ip : String
  userAgent : String
  host : String
  forwardedFor : Option String
  remoteAddr : Option String
  proxyCheck : DetectOut
deriving DecidableEq, Repr

/-- A response body: empty (OPTIONS), the success JSON, or the error JSON
`{ success: false, error: e }`. -/
inductive RespBody
  | empty
  | ok (p : SuccessPayload)
  | err (e : String)
deriving DecidableEq, Repr

/-- An HTTP response. -/
structure HResp where
  status : Nat
  body : RespBody
deriving DecidableEq, Repr

/-- The handler (source lines 26–83).  `rtMs` stands for the measured elapsed
milliseconds and `nowIso` for `new Date().toISOString()`; `exc` is `some e`
when the body raises an uncaught exception whose stringification is `e`, in
which case the top-level catch answers 500. -/
def handler (req : HandlerReq) (env : Env) (world : World) (now : Nat)
    (cache : Cache) (rtMs : Nat) (nowIso : String) (exc : Option String) :
    HResp × Cache :=
  if req.method = "OPTIONS" then ({ status := 200, body := RespBody.empty }, cache)
  else
    match exc with
    | some e => ({ status := 500, body := RespBody.err e }, cache)
    | none =>
      let rawXff := (jsHeaderGet req.headers "x-forwarded-for").getD ""
      let xffFirst := if rawXff = "" then "" else jsTrim ((jsSplitComma rawXff).headD "")
      let ip0 := jsOr xffFirst (jsOr ((jsHeaderGet req.headers "x-real-ip").getD "")
                   (jsOr (req.socketRemote.getD "") "unknown"))
      let ip := stripFfff ip0
      let r := rating rtMs
      let det := detectProxyOrVpn
        { ip := ip, rawXff := rawXff, headers := req.headers,
          socketRemote := stripFfff (req.socketRemote.getD "") }
        env world now cache
      ({ status := 200
         body := RespBody.ok
           { timestamp := nowIso
             speed := r.level
             score := r.score
             responseTime := toString rtMs ++ "ms"
             emoji := r.emoji
             recommendation := r.recStr
             ip := ip
             userAgent := jsOr ((jsHeaderGet req.headers "user-agent").getD "") "unknown"
             host := jsOr ((jsHeaderGet req.headers "host").getD "") "unknown"
             forwardedFor := if rawXff = "" then none else some rawXff
             remoteAddr := match req.socketRemote with
                           | some s => if s = "" then none else some s
                           | none => none
             proxyCheck := det.out } },
       det.cache)

/-! ### Helper lemmas -/

theorem isPfx_append (l t : List Char) : isPfx l (l ++ t) = true := by
  induction l with
  | nil => rfl
  | cons c cs ih => simp [isPfx, ih]

theorem strStarts_append_self (p s : String) : strStarts (p ++ s) p = true := by
  obtain ⟨ps⟩ := p
  obtain ⟨cs⟩ := s
  simp [strStarts, String.data_append, isPfx_append]

theorem ne_of_strStarts {p a b : String} (ha : strStarts a p = true)
    (hb : strStarts b p = false) : a ≠ b := by
  intro h
  rw [h] at ha
  rw [ha] at hb
  exact Bool.noConfusion hb

/-- The final booleans of `detectProxyOrVpn` are the scan of its final
reasons list with the line-195 predicate. -/
theorem detect_isProxy_spec (inp : DetectInput) (env : Env) (world : World)
    (now : Nat) (cache : Cache) :
    (detectProxyOrVpn inp env world now cache).out.isProxy =
      (detectProxyOrVpn inp env world now cache).out.reasons.any isProxyReason := by
  unfold detectProxyOrVpn
  split
  · rfl
  · rfl

/-- The final `isVPN` is the scan of the final reasons list with the
line-197 predicate. -/
theorem detect_isVPN_spec (inp : DetectInput) (env : Env) (world : World)
    (now : Nat) (cache : Cache) :
    (detectProxyOrVpn inp env world now cache).out.isVPN =
      (detectProxyOrVpn inp env world now cache).out.reasons.any isVpnReason := by
  unfold detectProxyOrVpn
  split
  · rfl
  · rfl

/-! ### Claim C5: the speed rating -/

/-- C5: the speed rating is the deterministic six-tier mapping with strict
upper bounds at 50/100/200/400/800 ms, the score is monotonically
non-increasing in the elapsed time, and the boundary values are
t=49→100, t=50→90, t=99→90, t=100→75. -/
theorem rating_tiers :
    (∀ t : Nat, t < 50 → rating t = ⟨"SUPER FAST", 100, "⚡", "Perfect for realtime"⟩) ∧
    (∀ t : Nat, 50 ≤ t → t < 100 → rating t = ⟨"VERY FAST", 90, "🚀", "Great for streaming"⟩) ∧
    (∀ t : Nat, 100 ≤ t → t < 200 → rating t = ⟨"FAST", 75, "✨", "Good for browsing"⟩) ∧
    (∀ t : Nat, 200 ≤ t → t < 400 → rating t = ⟨"NORMAL", 60, "👍", "Average"⟩) ∧
    (∀ t : Nat, 400 ≤ t → t < 800 → rating t = ⟨"SLOW", 40, "🐌", "Check network/proxy"⟩) ∧
    (∀ t : Nat, 800 ≤ t → rating t = ⟨"VERY SLOW", 20, "🐢", "Optimize network"⟩) ∧
    (∀ t u : Nat, t ≤ u → (rating u).score ≤ (rating t).score) ∧
    (rating 49).score = 100 ∧ (rating 50).score = 90 ∧
    (rating 99).score = 90 ∧ (rating 100).score = 75 := by
  refine ⟨?_, ?_, ?_, ?_, ?_, ?_, ?_, by decide, by decide, by decide, by decide⟩
  · intro t h; unfold rating; split_ifs <;> first | rfl | omega
  · intro t h1 h2; unfold rating; split_ifs <;> first | rfl | omega
  · intro t h1 h2; unfold rating; split_ifs <;> first | rfl | omega
  · intro t h1 h2; unfold rating; split_ifs <;> first | rfl | omega
  · intro t h1 h2; unfold rating; split_ifs <;> first | rfl | omega
  · intro t h; unfold rating; split_ifs <;> first | rfl | omega
  · intro t u h; unfold rating; split_ifs <;> first | decide | omega

/-- Witness for `rating_tiers` at concrete inputs. -/
theorem rating_tiers_witness :
    rating 49 = ⟨"SUPER FAST", 100, "⚡", "Perfect for realtime"⟩ ∧
    (rating 120).score ≤ (rating 3).score :=
  ⟨rating_tiers.1 49 (by decide), rating_tiers.2.2.2.2.2.2.1 3 120 (by decide)⟩

/-! ### Claim C4: the `no-ip` short circuit -/

/-- C4: with the sentinel `unknown` IP, the result is exactly
`{isProxy := false, isVPN := false, reasons := ["no-ip"]}`, the cache is
untouched, and neither enrichment call is attempted. -/
theorem detect_no_ip_short_circuit (inp : DetectInput) (env : Env) (world : World)
    (now : Nat) (cache : Cache) (h : inp.ip = "unknown") :
    detectProxyOrVpn inp env world now cache =
      { out := { isProxy := false, isVPN := false, reasons := ["no-ip"],
                 ipinfo := none, note := none }
        cache := cache, pcCalled := false, iiCalled := false } := by
  unfold detectProxyOrVpn
  rw [if_pos (Or.inr h)]

/-- Witness for `detect_no_ip_short_circuit`: even with a token configured
and both oracles ready to answer, nothing is attempted. -/
theorem detect_no_ip_short_circuit_witness :
    detectProxyOrVpn ⟨"unknown", "", [], ""⟩ ⟨none, some "tok"⟩
      ⟨some ⟨some "yes", some "vpn"⟩, some ⟨some "1.2.3.4", some "Amazon.com, Inc.", some "US"⟩⟩
      5 [] =
      { out := { isProxy := false, isVPN := false, reasons := ["no-ip"],
                 ipinfo := none, note := none }
        cache := [], pcCalled := false, iiCalled := false } :=
  detect_no_ip_short_circuit _ _ _ _ _ rfl

/-! ### Claim C1: verdict booleans derived from the reasons list -/

/-- C1: for any request with a non-`unknown` IP, `isProxy` is true iff some
final reason starts with `proxycheck:`, equals `xff-multiple`, equals
`xff-private-to-public`, or starts with `hosting-provider:`; and `isVPN` is
true iff some final reason starts with `proxycheck:` and case-insensitively
contains `vpn`. -/
theorem verdict_from_reasons (inp : DetectInput) (env : Env) (world : World)
    (now : Nat) (cache : Cache) (h : inp.ip ≠ "unknown") :
    ((detectProxyOrVpn inp env world now cache).out.isProxy =
      (detectProxyOrVpn inp env world now cache).out.reasons.any (fun r =>
        strStarts r "proxycheck:" || r == "xff-multiple" ||
        r == "xff-private-to-public" || strStarts r "hosting-provider:")) ∧
    ((detectProxyOrVpn inp env world now cache).out.isVPN =
      (detectProxyOrVpn inp env world now cache).out.reasons.any (fun r =>
        strStarts r "proxycheck:" && strContains (jsToLower r) "vpn")) :=
  ⟨detect_isProxy_spec inp env world now cache, detect_isVPN_spec inp env world now cache⟩

/-- Witness for `verdict_from_reasons` at a concrete request. -/
theorem verdict_from_reasons_witness :
    (detectProxyOrVpn ⟨"203.0.113.5", "10.0.0.5, 203.0.113.5",
        [("x-forwarded-for", "10.0.0.5, 203.0.113.5")], "10.0.0.2"⟩
      ⟨none, none⟩ ⟨some ⟨some "yes", some "vpn"⟩, none⟩ 0 []).out.isProxy =
    (detectProxyOrVpn ⟨"203.0.113.5", "10.0.0.5, 203.0.113.5",
        [("x-forwarded-for", "10.0.0.5, 203.0.113.5")], "10.0.0.2"⟩
      ⟨none, none⟩ ⟨some ⟨some "yes", some "vpn"⟩, none⟩ 0 []).out.reasons.any (fun r =>
        strStarts r "proxycheck:" || r == "xff-multiple" ||
        r == "xff-private-to-public" || strStarts r "hosting-provider:") :=
  (verdict_from_reasons _ _ _ _ _ (by decide)).1

/-! ### Claim C10: `isVPN` implies `isProxy` -/

/-- C10: whenever `detectProxyOrVpn` reports `isVPN`, it also reports
`isProxy`, because a reason qualifying for the VPN scan starts with
`proxycheck:` and hence qualifies for the proxy scan. -/
theorem isVPN_implies_isProxy (inp : DetectInput) (env : Env) (world : World)
    (now : Nat) (cache : Cache)
    (h : (detectProxyOrVpn inp env world now cache).out.isVPN = true) :
    (detectProxyOrVpn inp env world now cache).out.isProxy = true := by
  rw [detect_isVPN_spec] at h
  rw [detect_isProxy_spec]
  rcases List.any_eq_true.mp h with ⟨r, hr, hvr⟩
  refine List.any_eq_true.mpr ⟨r, hr, ?_⟩
  have h1 : strStarts r "proxycheck:" = true := by
    unfold isVpnReason at hvr
    rw [Bool.and_eq_true] at hvr
    exact hvr.1
  unfold isProxyReason
  simp [h1]

/-- Witness for `isVPN_implies_isProxy`: a proxycheck answer of type VPN. -/
theorem isVPN_implies_isProxy_witness :
    (detectProxyOrVpn ⟨"203.0.113.9", "", [], ""⟩ ⟨none, none⟩
      ⟨some ⟨some "yes", some "vpn"⟩, none⟩ 0 []).out.isProxy = true :=
  isVPN_implies_isProxy _ _ _ _ _ (by decide)

/-! ### Claim C2: informational tags never flip the verdict -/

/-- C2: the `proxy-headers:…` and `scripted-ua` tags are informational: no
`proxy-headers:` tag and not `scripted-ua` satisfies the proxy predicate,
and whenever no reason of a result satisfies it, `isProxy` is false. -/
theorem informational_tags_only :
    (∀ s : String, isProxyReason ("proxy-headers:" ++ s) = false) ∧
    isProxyReason "scripted-ua" = false ∧
    (∀ (inp : DetectInput) (env : Env) (world : World) (now : Nat) (cache : Cache),
      (detectProxyOrVpn inp env world now cache).out.reasons.all
        (fun r => !isProxyReason r) = true →
      (detectProxyOrVpn inp env world now cache).out.isProxy = false) := by
  refine ⟨?_, by decide, ?_⟩
  · intro s
    obtain ⟨cs⟩ := s
    rfl
  · intro inp env world now cache hall
    rw [detect_isProxy_spec]
    refine List.any_eq_false.mpr ?_
    intro r hr
    have := List.all_eq_true.mp hall r hr
    simp only [Bool.not_eq_true'] at this
    simp [this]

/-- Witness for `informational_tags_only`: a scripted user agent plus
present proxy headers yield exactly the two informational tags, and the
verdict stays false. -/
theorem informational_tags_only_witness :
    (detectProxyOrVpn ⟨"203.0.113.5", "203.0.113.5",
        [("x-forwarded-for", "203.0.113.5"), ("user-agent", "curl/8.0")], "10.0.0.2"⟩
      ⟨none, none⟩ ⟨some ⟨some "no", none⟩, none⟩ 0 []).out.reasons =
      ["scripted-ua", "proxy-headers:x-forwarded-for"] ∧
    (detectProxyOrVpn ⟨"203.0.113.5", "203.0.113.5",
        [("x-forwarded-for", "203.0.113.5"), ("user-agent", "curl/8.0")], "10.0.0.2"⟩
      ⟨none, none⟩ ⟨some ⟨some "no", none⟩, none⟩ 0 []).out.isProxy = false :=
  ⟨by decide, informational_tags_only.2.2 _ _ _ _ _ (by decide)⟩

/-! ### Claim C8: the handler's top-level catch -/

/-- C8: on a GET request, an uncaught exception in the body is answered with
status 500 and the error JSON `{success:false, error:e}` (the `RespBody.err`
constructor), and otherwise the handler answers 200 with the success JSON
body; being a total function, the model never propagates an exception. -/
theorem handler_get_catches (req : HandlerReq) (env : Env) (world : World)
    (now : Nat) (cache : Cache) (rtMs : Nat) (nowIso : String) (exc : Option String)
    (hm : req.method = "GET") :
    (∀ e, exc = some e →
      handler req env world now cache rtMs nowIso exc =
        ({ status := 500, body := RespBody.err e }, cache)) ∧
    (exc = none →
      (handler req env world now cache rtMs nowIso exc).1.status = 200 ∧
      ∃ p, (handler req env world now cache rtMs nowIso exc).1.body = RespBody.ok p) := by
  have hne : ¬ (req.method = "OPTIONS") := by rw [hm]; decide
  constructor
  · intro e he
    subst he
    unfold handler
    rw [if_neg hne]
  · intro he
    subst he
    unfold handler
    rw [if_neg hne]
    exact ⟨rfl, ⟨_, rfl⟩⟩

/-- Witness for `handler_get_catches`: a concrete failing GET and a concrete
succeeding GET. -/
theorem handler_get_catches_witness :
    handler ⟨"GET", [], some "203.0.113.7"⟩ ⟨none, none⟩ ⟨none, none⟩ 0 [] 12
        "2026-10-11T00:00:00.000Z" (some "Error: boom") =
      ({ status := 500, body := RespBody.err "Error: boom" }, []) :=
  (handler_get_catches _ _ _ _ _ _ _ _ rfl).1 "Error: boom" rfl

/-! ### Claim C3: the forwarded-for chain tags -/

/-- Well-formed cache: every stored proxycheck summary only carries reasons
that start with `proxycheck:` (the only shape `cacheSet` ever stores). -/
def WFCache (c : Cache) : Prop :=
  ∀ p ∈ c, ∀ pcc : PCCached, p.2.value = CacheValue.pc pcc →
    ∀ r ∈ pcc.reasons, strStarts r "proxycheck:" = true

theorem cacheFind_mem {key : String} {c : Cache} {e : CacheEntry}
    (h : cacheFind key c = some e) : (key, e) ∈ c := by
  induction c with
  | nil => cases h
  | cons hd tl ih =>
    obtain ⟨k, e'⟩ := hd
    unfold cacheFind at h
    by_cases hk : k = key
    · rw [if_pos hk] at h
      injection h with h
      subst hk
      subst h
      exact List.mem_cons_self _ _
    · rw [if_neg hk] at h
      exact List.mem_cons_of_mem _ (ih h)

theorem cacheGet_fst_some {now : Nat} {key : String} {c : Cache} {v : CacheValue}
    (h : (cacheGet now key c).1 = some v) :
    ∃ e, cacheFind key c = some e ∧ e.value = v := by
  unfold cacheGet at h
  split at h
  · simp at h
  · rename_i e heq
    split at h
    · simp at h
    · exact ⟨e, heq, by simpa using h⟩

/-- Every reason emitted by the proxycheck block starts with `proxycheck:`,
given a well-formed cache. -/
theorem pc_reasons_proxycheck (ip : String) (resp : Option PCInfo) (now : Nat)
    (cache : Cache) (hwf : WFCache cache) :
    ∀ r ∈ (pcStep ip resp now cache).reasons, strStarts r "proxycheck:" = true := by
  intro r hr
  unfold pcStep at hr
  split at hr
  · rename_i v c2 heq
    have hg1 : (cacheGet now ("proxycheck:" ++ ip) cache).1 = some v := by rw [heq]
    obtain ⟨e, hfind, hval⟩ := cacheGet_fst_some hg1
    cases hv : v with
    | pc pcc =>
      rw [hv] at hr
      by_cases hp : pcc.isProxy = true
      · simp only [CacheValue.asPc, hp, if_true] at hr
        exact hwf _ (cacheFind_mem hfind) pcc (by rw [hval, hv]) r hr
      · simp [CacheValue.asPc, hp] at hr
    | ii j =>
      rw [hv] at hr
      simp [CacheValue.asPc] at hr
  · rename_i c2 heq
    cases resp with
    | none => simp at hr
    | some info =>
      by_cases hp : info.proxy = some "yes"
      · simp only [hp] at hr
        simp at hr
        rw [hr]
        exact strStarts_append_self "proxycheck:" _
      · simp [hp] at hr

/-- Every hosting reason starts with `hosting-provider:`. -/
theorem hostingReasons_start (ii : Option IpinfoJson) (r : String)
    (hr : r ∈ hostingReasons ii) : strStarts r "hosting-provider:" = true := by
  unfold hostingReasons at hr
  split at hr
  · split at hr
    · split at hr
      · split at hr
        · rw [List.mem_singleton] at hr
          rw [hr]
          exact strStarts_append_self _ _
        · simp at hr
      · simp at hr
    · simp at hr
  · simp at hr

/-- Every reason emitted by the ipinfo block starts with `hosting-provider:`. -/
theorem ii_reasons_hosting (ip : String) (token : Option String)
    (resp : Option IpinfoJson) (now : Nat) (cache : Cache) :
    ∀ r ∈ (iiStep ip token resp now cache).reasons,
      strStarts r "hosting-provider:" = true := by
  intro r hr
  unfold iiStep at hr
  split at hr
  · split at hr
    · exact hostingReasons_start _ _ hr
    · cases resp with
      | none => simp at hr
      | some j =>
        have hr2 : r ∈ hostingReasons (some j) := by simpa using hr
        exact hostingReasons_start _ _ hr2
  · simp at hr

/-- Membership in an `if`-guarded singleton. -/
theorem mem_ite_singleton {α : Type} {c : Prop} [Decidable c] {a b : α} :
    (a ∈ (if c then [b] else [])) ↔ (c ∧ a = b) := by
  split <;> simp_all

theorem xffm_ne_ph (s : String) : ¬ ("xff-multiple" = "proxy-headers:" ++ s) :=
  fun h => (ne_of_strStarts (strStarts_append_self "proxy-headers:" s) (by decide)) h.symm

theorem xffp_ne_ph (s : String) : ¬ ("xff-private-to-public" = "proxy-headers:" ++ s) :=
  fun h => (ne_of_strStarts (strStarts_append_self "proxy-headers:" s) (by decide)) h.symm

/-- `xff-multiple` appears among the heuristic reasons exactly when the
forwarded-for chain has more than one hop. -/
theorem heur_mem_xff_multiple (inp : DetectInput) :
    ("xff-multiple" ∈ heurReasons inp) ↔ (xffParts inp.rawXff).length > 1 := by
  unfold heurReasons
  simp only [List.mem_append, mem_ite_singleton]
  constructor
  · rintro (((⟨hc, _⟩ | ⟨_, hq⟩) | ⟨_, hq⟩) | ⟨_, hq⟩)
    · exact hc
    · exact absurd hq (by decide)
    · exact absurd hq (by decide)
    · exact absurd hq (xffm_ne_ph _)
  · intro hc
    exact Or.inl (Or.inl (Or.inl ⟨hc, trivial⟩))

/-- `xff-private-to-public` appears among the heuristic reasons exactly when
the chain is nonempty, its first hop is private and its last hop public. -/
theorem heur_mem_xff_p2p (inp : DetectInput) :
    ("xff-private-to-public" ∈ heurReasons inp) ↔
      ((xffParts inp.rawXff).length ≥ 1 ∧
       isPrivate (stripFfff ((xffParts inp.rawXff).headD "")) = true ∧
       isPrivate (stripFfff ((xffParts inp.rawXff).getLastD "")) = false) := by
  unfold heurReasons
  simp only [List.mem_append, mem_ite_singleton]
  constructor
  · rintro (((⟨_, hq⟩ | ⟨hc, _⟩) | ⟨_, hq⟩) | ⟨_, hq⟩)
    · exact absurd hq (by decide)
    · exact hc
    · exact absurd hq (by decide)
    · exact absurd hq (xffp_ne_ph _)
  · intro hc
    exact Or.inl (Or.inl (Or.inr ⟨hc, trivial⟩))

/-- C3: for any request with a usable IP and a well-formed cache, the
`xff-multiple` tag is present iff the comma-split, trimmed, empty-dropped
chain has more than one hop; the `xff-private-to-public` tag is present iff
the chain is nonempty with a private first hop and a public last hop; and a
single-hop chain (the NAT case included) produces neither tag. -/
theorem xff_chain_tags (inp : DetectInput) (env : Env) (world : World)
    (now : Nat) (cache : Cache) (hwf : WFCache cache)
    (h1 : inp.ip ≠ "") (h2 : inp.ip ≠ "unknown") :
    (("xff-multiple" ∈ (detectProxyOrVpn inp env world now cache).out.reasons) ↔
      (xffParts inp.rawXff).length > 1) ∧
    (("xff-private-to-public" ∈ (detectProxyOrVpn inp env world now cache).out.reasons) ↔
      ((xffParts inp.rawXff).length ≥ 1 ∧
       isPrivate (stripFfff ((xffParts inp.rawXff).headD "")) = true ∧
       isPrivate (stripFfff ((xffParts inp.rawXff).getLastD "")) = false)) ∧
    ((xffParts inp.rawXff).length = 1 →
      ("xff-multiple" ∉ (detectProxyOrVpn inp env world now cache).out.reasons ∧
       "xff-private-to-public" ∉ (detectProxyOrVpn inp env world now cache).out.reasons)) := by
  have hrs : (detectProxyOrVpn inp env world now cache).out.reasons =
      heurReasons inp ++ (pcStep inp.ip world.pcResp now cache).reasons ++
        (iiStep inp.ip env.ipinfoToken world.iiResp now
          (pcStep inp.ip world.pcResp now cache).cache).reasons := by
    unfold detectProxyOrVpn
    rw [if_neg (by tauto)]
  have hpcm : "xff-multiple" ∉ (pcStep inp.ip world.pcResp now cache).reasons := by
    intro hm
    exact absurd (pc_reasons_proxycheck _ _ _ _ hwf _ hm) (by decide)
  have hpcp : "xff-private-to-public" ∉ (pcStep inp.ip world.pcResp now cache).reasons := by
    intro hm
    exact absurd (pc_reasons_proxycheck _ _ _ _ hwf _ hm) (by decide)
  have hiim : "xff-multiple" ∉ (iiStep inp.ip env.ipinfoToken world.iiResp now
      (pcStep inp.ip world.pcResp now cache).cache).reasons := by
    intro hm
    exact absurd (ii_reasons_hosting _ _ _ _ _ _ hm) (by decide)
  have hiip : "xff-private-to-public" ∉ (iiStep inp.ip env.ipinfoToken world.iiResp now
      (pcStep inp.ip world.pcResp now cache).cache).reasons := by
    intro hm
    exact absurd (ii_reasons_hosting _ _ _ _ _ _ hm) (by decide)
  rw [hrs]
  refine ⟨?_, ?_, ?_⟩
  · simp [List.mem_append, hpcm, hiim, heur_mem_xff_multiple]
  · simp [List.mem_append, hpcp, hiip, heur_mem_xff_p2p]
  · intro hlen
    obtain ⟨a, ha⟩ := List.length_eq_one.mp hlen
    constructor
    · simp [List.mem_append, hpcm, hiim, heur_mem_xff_multiple, hlen]
    · simp only [List.mem_append, heur_mem_xff_p2p]
      rintro ((⟨_, hT, hF⟩ | hm) | hm)
      · rw [ha] at hT hF
        simp at hT hF
        rw [hT] at hF
        simp at hF
      · exact hpcp hm
      · exact hiip hm

/-- Witness for `xff_chain_tags`: the two-hop private-then-public chain. -/
theorem xff_chain_tags_witness :
    ("xff-multiple" ∈ (detectProxyOrVpn ⟨"203.0.113.5", "10.0.0.5, 203.0.113.5", [], ""⟩
        ⟨none, none⟩ ⟨none, none⟩ 0 []).out.reasons) ↔
      (xffParts "10.0.0.5, 203.0.113.5").length > 1 :=
  (xff_chain_tags ⟨"203.0.113.5", "10.0.0.5, 203.0.113.5", [], ""⟩ ⟨none, none⟩
    ⟨none, none⟩ 0 []
    (fun p hp => absurd hp (List.not_mem_nil p)) (by decide) (by decide)).1

/-! ### Claim C7: the private-address classifier -/

/-- Decimal value of a digit string. -/
def octVal (cs : List Char) : Nat :=
  cs.foldl (fun a c => a * 10 + (c.toNat - '0'.toNat)) 0

/-- Spec-side notion of one canonical decimal octet 0–255 (nonempty, all
digits, no leading zero unless the octet is `0` itself). -/
def specOctet (s : String) : Bool :=
  match s.data with
  | [] => false
  | c :: rest =>
    (c :: rest).all Char.isDigit && (rest.isEmpty || !(c == '0')) &&
      (octVal (c :: rest) ≤ 255 : Bool)

/-- The canonical second octets of `172.16.0.0/12`. -/
def OCT_16_31 : List String :=
  ["16", "17", "18", "19", "20", "21", "22", "23",
   "24", "25", "26", "27", "28", "29", "30", "31"]

/-- Spec-side core test on a prefix-stripped address: `::1`, or a canonical
dotted quad whose leading octets put it in `10.0.0.0/8`, `127.0.0.0/8`,
`192.168.0.0/16` or `172.16.0.0/12`. -/
def specCore (cs : List Char) : Bool :=
  (⟨cs⟩ : String) == "::1" ||
  (match splitOnChar '.' cs with
   | [da, db, dc, dd] =>
     specOctet ⟨da⟩ && specOctet ⟨db⟩ && specOctet ⟨dc⟩ && specOctet ⟨dd⟩ &&
       ((⟨da⟩ : String) == "10" || (⟨da⟩ : String) == "127" ||
        ((⟨da⟩ : String) == "192" && (⟨db⟩ : String) == "168") ||
        ((⟨da⟩ : String) == "172" && OCT_16_31.contains ⟨db⟩))
   | _ => false)

/-- Modelled from the spec (§4.2): an address string textually in the RFC1918
ranges `10.0.0.0/8`, `172.16.0.0/12`, `192.168.0.0/16`, loopback `127.0.0.0/8`
or `::1`, with an optional leading `::ffff:` prefix tolerated.  Used only to
compare the spec's wording with the code's `isPrivate`. -/
def specPrivateAddr (s : String) : Bool :=
  match dropPfxCI "::ffff:".data s.data with
  | some rest => specCore rest
  | none => specCore s.data

example : specPrivateAddr "10.0.0.5" = true := by decide
example : specPrivateAddr "::ffff:172.31.0.1" = true := by decide
example : specPrivateAddr "203.0.113.5" = false := by decide

/-- `joinSep` undoes `splitOnChar`. -/
def joinSep (sep : Char) : List (List Char) → List Char
  | [] => []
  | [l] => l
  | l :: ls => l ++ sep :: joinSep sep ls

theorem splitOnChar_ne_nil (sep : Char) (cs : List Char) :
    splitOnChar sep cs ≠ [] := by
  cases cs with
  | nil => simp [splitOnChar]
  | cons c t =>
    unfold splitOnChar
    by_cases hc : (c == sep) = true
    · simp [hc]
    · rw [if_neg hc]
      cases splitOnChar sep t <;> simp

theorem joinSep_splitOnChar (sep : Char) (cs : List Char) :
    joinSep sep (splitOnChar sep cs) = cs := by
  induction cs with
  | nil => rfl
  | cons c t ih =>
    unfold splitOnChar
    by_cases hc : (c == sep) = true
    · rw [if_pos hc]
      cases hsp : splitOnChar sep t with
      | nil => exact absurd hsp (splitOnChar_ne_nil sep t)
      | cons r rs =>
        rw [hsp] at ih
        have hcs : c = sep := by simpa using hc
        simp only [joinSep, List.nil_append]
        rw [hcs, ih]
    · rw [if_neg hc]
      cases hsp : splitOnChar sep t with
      | nil => exact absurd hsp (splitOnChar_ne_nil sep t)
      | cons r rs =>
        rw [hsp] at ih
        cases rs with
        | nil => simpa [joinSep] using ih
        | cons r2 rs2 =>
          simp only [joinSep, List.cons_append] at ih ⊢
          rw [ih]

theorem dropPfxCI_refl_append (p t : List Char) : dropPfxCI p (p ++ t) = some t := by
  induction p with
  | nil => simp [dropPfxCI]
  | cons c cs ih => simp [dropPfxCI, ih]

theorem privCore_10 (t : List Char) : privCore ('1' :: '0' :: '.' :: t) = true := rfl

theorem privCore_127 (t : List Char) :
    privCore ('1' :: '2' :: '7' :: '.' :: t) = true := rfl

theorem privCore_192168 (t : List Char) :
    privCore ('1' :: '9' :: '2' :: '.' :: '1' :: '6' :: '8' :: '.' :: t) = true := rfl

theorem privCore_172 (b : String) (hb : b ∈ OCT_16_31) (t : List Char) :
    privCore ('1' :: '7' :: '2' :: '.' :: (b.data ++ '.' :: t)) = true := by
  fin_cases hb <;> rfl

/-- Any address the spec-side core test accepts is matched by the regex
core. -/
theorem specCore_privCore (cs : List Char) (h : specCore cs = true) :
    privCore cs = true := by
  unfold specCore at h
  rw [Bool.or_eq_true] at h
  rcases h with h1 | h2
  · have hcs : cs = [':', ':', '1'] := by
      have := congrArg String.data (eq_of_beq h1)
      simpa using this
    rw [hcs]
    decide
  · split at h2
    · rename_i da db dc dd hs
      simp only [Bool.and_eq_true, Bool.or_eq_true] at h2
      obtain ⟨⟨⟨⟨_, _⟩, _⟩, _⟩, hrange⟩ := h2
      have hj := joinSep_splitOnChar '.' cs
      rw [hs] at hj
      simp only [joinSep, List.cons_append] at hj
      rcases hrange with ((h10 | h127) | ⟨h192, h168⟩) | ⟨h172, hcont⟩
      · have hda : da = ['1', '0'] := by
          simpa using congrArg String.data (eq_of_beq h10)
        rw [hda] at hj
        rw [← hj]
        exact privCore_10 _
      · have hda : da = ['1', '2', '7'] := by
          simpa using congrArg String.data (eq_of_beq h127)
        rw [hda] at hj
        rw [← hj]
        exact privCore_127 _
      · have hda : da = ['1', '9', '2'] := by
          simpa using congrArg String.data (eq_of_beq h192)
        have hdb : db = ['1', '6', '8'] := by
          simpa using congrArg String.data (eq_of_beq h168)
        rw [hda, hdb] at hj
        rw [← hj]
        exact privCore_192168 _
      · have hda : da = ['1', '7', '2'] := by
          simpa using congrArg String.data (eq_of_beq h172)
        have hmem : (⟨db⟩ : String) ∈ OCT_16_31 := by
          simpa using hcont
        rw [hda] at hj
        rw [← hj]
        exact privCore_172 ⟨db⟩ hmem _
    · cases h2

/-- Any address the spec deems private is accepted by the code's
classifier. -/
theorem specPrivate_sound (s : String) (h : specPrivateAddr s = true) :
    isPrivate s = true := by
  have hne : s ≠ "" := by
    intro he
    rw [he] at h
    have hfalse : specPrivateAddr "" = false := by decide
    rw [hfalse] at h
    exact Bool.noConfusion h
  unfold isPrivate
  rw [if_neg hne]
  unfold specPrivateAddr at h
  cases hd : dropPfxCI "::ffff:".data s.data with
  | some rest =>
    rw [hd] at h
    have hsc : specCore rest = true := h
    unfold privateReTest
    rw [hd]
    show (privCore s.data || privCore rest) = true
    rw [specCore_privCore rest hsc]
    simp
  | none =>
    rw [hd] at h
    have hsc : specCore s.data = true := h
    unfold privateReTest
    rw [specCore_privCore s.data hsc]
    simp

/-! #### A complete characterisation of the classifier

The lemmas below invert the case-insensitive matching and yield an exact
description of the strings `PRIVATE_RE` accepts. -/

theorem char_le_toNat {a b : Char} (h : a ≤ b) : a.toNat ≤ b.toNat := by
  rw [Char.le_def] at h
  exact h

theorem toNat_ofNat_valid {n : Nat} (h : n < 55296) : (Char.ofNat n).toNat = n := by
  unfold Char.ofNat
  rw [dif_pos (Or.inl h)]
  rfl

/-- `charLower` moves nothing onto a character outside the lowercase-letter
range, so such a target pins its preimage. -/
theorem charLower_fixed_inv {b : Char} (hb : b.toNat < 97 ∨ 122 < b.toNat)
    (a : Char) (h : charLower a = b) : a = b := by
  unfold charLower at h
  split_ifs at h with hc
  · exfalso
    obtain ⟨h1, h2⟩ := hc
    have ha1 := char_le_toNat h1
    have ha2 := char_le_toNat h2
    have hA : ('A' : Char).toNat = 65 := by decide
    have hZ : ('Z' : Char).toNat = 90 := by decide
    have hv : a.toNat + 32 < 55296 := by omega
    have hEq := congrArg Char.toNat h
    rw [toNat_ofNat_valid hv] at hEq
    omega
  · exact h

/-- A pattern of non-lowercase-letter characters is matched case-insensitively
only by itself. -/
theorem map_charLower_fixed {pat : List Char}
    (hpat : ∀ b ∈ pat, b.toNat < 97 ∨ 122 < b.toNat) :
    ∀ q : List Char, q.map charLower = pat → q = pat := by
  induction pat with
  | nil => intro q h; simpa using h
  | cons b bs ih =>
    intro q h
    cases q with
    | nil => simp at h
    | cons c cs =>
      simp only [List.map_cons, List.cons.injEq] at h
      obtain ⟨h1, h2⟩ := h
      rw [charLower_fixed_inv (hpat b (List.mem_cons_self b bs)) c h1,
        ih (fun x hx => hpat x (List.mem_cons_of_mem b hx)) cs h2]

/-- Success of the case-insensitive prefix drop, characterised. -/
theorem dropPfxCI_some_iff (pat : List Char) :
    ∀ (cs t : List Char), dropPfxCI pat cs = some t ↔
      ∃ q, cs = q ++ t ∧ q.map charLower = pat.map charLower := by
  induction pat with
  | nil =>
    intro cs t
    constructor
    · intro h
      simp only [dropPfxCI] at h
      injection h with h
      exact ⟨[], by simp [h], by simp⟩
    · rintro ⟨q, hcs, hq⟩
      have hq0 : q = [] := by simpa using hq
      subst hq0
      simp only [dropPfxCI]
      rw [hcs]
      simp
  | cons p ps ih =>
    intro cs t
    constructor
    · intro h
      cases cs with
      | nil => simp [dropPfxCI] at h
      | cons c cs' =>
        simp only [dropPfxCI] at h
        split_ifs at h with hpc
        · obtain ⟨q', hcs', hq'⟩ := (ih cs' t).mp h
          refine ⟨c :: q', by simp [hcs'], ?_⟩
          simp only [List.map_cons, List.cons.injEq]
          exact ⟨(eq_of_beq hpc).symm, hq'⟩
    · rintro ⟨q, hcs, hq⟩
      cases q with
      | nil => simp at hq
      | cons c q' =>
        simp only [List.map_cons, List.cons.injEq] at hq
        obtain ⟨h1, h2⟩ := hq
        simp only [List.cons_append] at hcs
        subst hcs
        simp only [dropPfxCI]
        rw [if_pos (beq_iff_eq.mpr h1.symm)]
        exact (ih (q' ++ t) t).mpr ⟨q', rfl, h2⟩

theorem char_eq_of_toNat {d : Char} {n : Nat} (h : d.toNat = n) : d = Char.ofNat n := by
  rw [← h, Char.ofNat_toNat]

theorem char_between_6_9 {d : Char} (h1 : '6' ≤ d) (h2 : d ≤ '9') :
    d = '6' ∨ d = '7' ∨ d = '8' ∨ d = '9' := by
  have hn1 := char_le_toNat h1
  have hn2 := char_le_toNat h2
  have h6 : ('6' : Char).toNat = 54 := by decide
  have h9 : ('9' : Char).toNat = 57 := by decide
  have hv : d.toNat = 54 ∨ d.toNat = 55 ∨ d.toNat = 56 ∨ d.toNat = 57 := by omega
  rcases hv with h | h | h | h
  · exact Or.inl (by rw [char_eq_of_toNat h])
  · exact Or.inr (Or.inl (by rw [char_eq_of_toNat h]))
  · exact Or.inr (Or.inr (Or.inl (by rw [char_eq_of_toNat h])))
  · exact Or.inr (Or.inr (Or.inr (by rw [char_eq_of_toNat h])))

theorem char_digit_enum {d : Char} (h : d.isDigit = true) :
    d = '0' ∨ d = '1' ∨ d = '2' ∨ d = '3' ∨ d = '4' ∨ d = '5' ∨ d = '6' ∨
      d = '7' ∨ d = '8' ∨ d = '9' := by
  unfold Char.isDigit at h
  rw [Bool.and_eq_true] at h
  obtain ⟨h1, h2⟩ := h
  have g1 : ('0' : Char).toNat ≤ d.toNat := of_decide_eq_true h1
  have g2 : d.toNat ≤ ('9' : Char).toNat := of_decide_eq_true h2
  have h0 : ('0' : Char).toNat = 48 := by decide
  have h9 : ('9' : Char).toNat = 57 := by decide
  have hv : d.toNat = 48 ∨ d.toNat = 49 ∨ d.toNat = 50 ∨ d.toNat = 51 ∨
      d.toNat = 52 ∨ d.toNat = 53 ∨ d.toNat = 54 ∨ d.toNat = 55 ∨
      d.toNat = 56 ∨ d.toNat = 57 := by omega
  rcases hv with h | h | h | h | h | h | h | h | h | h <;>
    rw [char_eq_of_toNat h] <;> decide

/-- The exact set of prefixes `PRIVATE_RE`'s core alternation accepts: a
leading `10.`, `172.<16-31>.`, `192.168.`, `127.`, or `::1` at a word
boundary (end of input or a non-word character). -/
def privShape (cs : List Char) : Prop :=
  (∃ t, cs = '1' :: '0' :: '.' :: t) ∨
  (∃ d1 d2 t, cs = '1' :: '7' :: '2' :: '.' :: d1 :: d2 :: '.' :: t ∧
    ((d1 = '1' ∧ '6' ≤ d2 ∧ d2 ≤ '9') ∨ (d1 = '2' ∧ d2.isDigit = true) ∨
     (d1 = '3' ∧ (d2 = '0' ∨ d2 = '1')))) ∨
  (∃ t, cs = '1' :: '9' :: '2' :: '.' :: '1' :: '6' :: '8' :: '.' :: t) ∨
  (∃ t, cs = '1' :: '2' :: '7' :: '.' :: t) ∨
  (cs = [':', ':', '1'] ∨ ∃ c t, cs = ':' :: ':' :: '1' :: c :: t ∧ isWordChar c = false)

/-- The regex core accepts exactly the `privShape` strings. -/
theorem privCore_iff_shape (cs : List Char) : privCore cs = true ↔ privShape cs := by
  constructor
  · intro h
    unfold privCore at h
    rw [Bool.or_eq_true, Bool.or_eq_true, Bool.or_eq_true, Bool.or_eq_true] at h
    rcases h with ((((h | h) | h) | h) | h)
    · obtain ⟨t, ht⟩ := Option.isSome_iff_exists.mp h
      obtain ⟨q, hcs, hq⟩ := (dropPfxCI_some_iff _ _ _).mp ht
      rw [show "10.".data.map charLower = "10.".data from by decide] at hq
      rw [map_charLower_fixed (by decide) q hq] at hcs
      exact Or.inl ⟨t, hcs⟩
    · unfold priv172 at h
      split at h
      · exact absurd h (by decide)
      rename_i rest heq
      obtain ⟨q, hcs, hq⟩ := (dropPfxCI_some_iff _ _ _).mp heq
      rw [show "172.".data.map charLower = "172.".data from by decide] at hq
      rw [map_charLower_fixed (by decide) q hq] at hcs
      split at h
      · rename_i r d t
        rw [Bool.and_eq_true] at h
        refine Or.inr (Or.inl ⟨'1', d, t, hcs, Or.inl ⟨rfl, ?_, ?_⟩⟩)
        · exact of_decide_eq_true h.1
        · exact of_decide_eq_true h.2
      · rename_i r d t
        exact Or.inr (Or.inl ⟨'2', d, t, hcs, Or.inr (Or.inl ⟨rfl, h⟩)⟩)
      · rename_i r d t
        rw [Bool.or_eq_true] at h
        refine Or.inr (Or.inl ⟨'3', d, t, hcs, Or.inr (Or.inr ⟨rfl, ?_⟩)⟩)
        rcases h with h | h
        · exact Or.inl (eq_of_beq h)
        · exact Or.inr (eq_of_beq h)
      · exact absurd h (by decide)
    · obtain ⟨t, ht⟩ := Option.isSome_iff_exists.mp h
      obtain ⟨q, hcs, hq⟩ := (dropPfxCI_some_iff _ _ _).mp ht
      rw [show "192.168.".data.map charLower = "192.168.".data from by decide] at hq
      rw [map_charLower_fixed (by decide) q hq] at hcs
      exact Or.inr (Or.inr (Or.inl ⟨t, hcs⟩))
    · obtain ⟨t, ht⟩ := Option.isSome_iff_exists.mp h
      obtain ⟨q, hcs, hq⟩ := (dropPfxCI_some_iff _ _ _).mp ht
      rw [show "127.".data.map charLower = "127.".data from by decide] at hq
      rw [map_charLower_fixed (by decide) q hq] at hcs
      exact Or.inr (Or.inr (Or.inr (Or.inl ⟨t, hcs⟩)))
    · unfold privColon1 at h
      cases hd : dropPfxCI "::1".data cs with
      | none => rw [hd] at h; cases h
      | some rest =>
        rw [hd] at h
        obtain ⟨q, hcs, hq⟩ := (dropPfxCI_some_iff _ _ _).mp hd
        rw [show "::1".data.map charLower = "::1".data from by decide] at hq
        rw [map_charLower_fixed (by decide) q hq] at hcs
        cases rest with
        | nil => exact Or.inr (Or.inr (Or.inr (Or.inr (Or.inl hcs))))
        | cons c t =>
          rw [Bool.not_eq_true'] at h
          exact Or.inr (Or.inr (Or.inr (Or.inr (Or.inr ⟨c, t, hcs, h⟩))))
  · intro h
    rcases h with ⟨t, ht⟩ | ⟨d1, d2, t, ht, hcond⟩ | ⟨t, ht⟩ | ⟨t, ht⟩ | (h5 | ⟨c, t, ht, hw⟩)
    · rw [ht]
      exact privCore_10 t
    · rw [ht]
      have hdp : dropPfxCI "172.".data
          ('1' :: '7' :: '2' :: '.' :: d1 :: d2 :: '.' :: t) = some (d1 :: d2 :: '.' :: t) :=
        dropPfxCI_refl_append "172.".data (d1 :: d2 :: '.' :: t)
      have hb : priv172 ('1' :: '7' :: '2' :: '.' :: d1 :: d2 :: '.' :: t) = true := by
        unfold priv172
        rw [hdp]
        rcases hcond with ⟨rfl, h6, h9⟩ | ⟨rfl, hdig⟩ | ⟨rfl, h01⟩
        · simp [h6, h9]
        · simp [hdig]
        · rcases h01 with rfl | rfl <;> simp
      simp [privCore, hb]
    · rw [ht]
      exact privCore_192168 t
    · rw [ht]
      exact privCore_127 t
    · rw [h5]
      decide
    · rw [ht]
      have hdp : dropPfxCI "::1".data (':' :: ':' :: '1' :: c :: t) = some (c :: t) :=
        dropPfxCI_refl_append "::1".data (c :: t)
      have hb : privColon1 (':' :: ':' :: '1' :: c :: t) = true := by
        unfold privColon1
        rw [hdp]
        simp [hw]
      simp [privCore, hb]

/-- The classifier accepts exactly the strings that, after an optional
case-insensitive `::ffff:` prefix, have one of the private shapes. -/
theorem isPrivate_iff_shape (s : String) :
    isPrivate s = true ↔
      (privShape s.data ∨
       ∃ q t, s.data = q ++ t ∧ q.map charLower = "::ffff:".data ∧ privShape t) := by
  unfold isPrivate
  by_cases hs : s = ""
  · subst hs
    rw [if_pos rfl]
    constructor
    · intro h
      cases h
    · rintro (h | ⟨q, t, hqt, hq, _⟩)
      · exfalso
        rcases h with ⟨t, ht⟩ | ⟨d1, d2, t, ht, _⟩ | ⟨t, ht⟩ | ⟨t, ht⟩ | (h5 | ⟨c, t, ht, _⟩)
        · simp at ht
        · simp at ht
        · simp at ht
        · simp at ht
        · exact absurd h5 (by decide)
        · simp at ht
      · exfalso
        have hq0 : q = [] := by
          cases q with
          | nil => rfl
          | cons x xs => simp at hqt
        subst hq0
        exact absurd hq (by decide)
  · rw [if_neg hs]
    unfold privateReTest
    rw [Bool.or_eq_true]
    cases hd : dropPfxCI "::ffff:".data s.data with
    | some rest =>
      show privCore s.data = true ∨ privCore rest = true ↔ _
      refine or_congr (privCore_iff_shape s.data) ?_
      constructor
      · intro hpc
        obtain ⟨q, hcs, hq⟩ := (dropPfxCI_some_iff _ _ _).mp hd
        rw [show "::ffff:".data.map charLower = "::ffff:".data from by decide] at hq
        exact ⟨q, rest, hcs, hq, (privCore_iff_shape rest).mp hpc⟩
      · rintro ⟨q, t, hqt, hq, hsh⟩
        obtain ⟨q0, hcs0, hq0⟩ := (dropPfxCI_some_iff _ _ _).mp hd
        have hlen : q.length = q0.length := by
          have l1 := congrArg List.length hq
          have l2 := congrArg List.length hq0
          simp only [List.length_map] at l1 l2
          rw [l1, l2]
        obtain ⟨hq_eq, ht_eq⟩ := List.append_inj (hqt.symm.trans hcs0) hlen
        exact (privCore_iff_shape rest).mpr (ht_eq ▸ hsh)
    | none =>
      show privCore s.data = true ∨ false = true ↔ _
      refine or_congr (privCore_iff_shape s.data) ?_
      constructor
      · intro h
        exact absurd h (by decide)
      · rintro ⟨q, t, hqt, hq, hsh⟩
        have := (dropPfxCI_some_iff "::ffff:".data s.data t).mpr
          ⟨q, hqt, hq.trans (by decide)⟩
        rw [hd] at this
        cases this

/-- Spec-side notion of a canonical public dotted-quad address: four canonical
octets whose leading octets place it in none of the private / loopback
ranges the spec lists. -/
def specPublicAddr (s : String) : Bool :=
  match splitOnChar '.' s.data with
  | [da, db, dc, dd] =>
    specOctet ⟨da⟩ && specOctet ⟨db⟩ && specOctet ⟨dc⟩ && specOctet ⟨dd⟩ &&
      !((⟨da⟩ : String) == "10" || (⟨da⟩ : String) == "127" ||
        ((⟨da⟩ : String) == "192" && (⟨db⟩ : String) == "168") ||
        ((⟨da⟩ : String) == "172" && OCT_16_31.contains ⟨db⟩))
  | _ => false

/-- A canonical octet is a nonempty all-digit string. -/
theorem specOctet_digits {l : List Char} (h : specOctet ⟨l⟩ = true) :
    l ≠ [] ∧ ∀ c ∈ l, c.isDigit = true := by
  cases l with
  | nil => exact absurd h (by decide)
  | cons c rest =>
    have h' : ((c :: rest).all Char.isDigit && (rest.isEmpty || !(c == '0')) &&
        (decide (octVal (c :: rest) ≤ 255))) = true := h
    rw [Bool.and_eq_true, Bool.and_eq_true] at h'
    refine ⟨by simp, ?_⟩
    intro x hx
    exact List.all_eq_true.mp h'.1.1 x hx

/-- Two dot-free blocks followed by a dot align. -/
theorem dotfree_align : ∀ (xs ys u v : List Char), ('.' ∈ xs → False) →
    ('.' ∈ ys → False) → xs ++ '.' :: u = ys ++ '.' :: v → xs = ys ∧ u = v
  | [], [], u, v, _, _, h => by
    simp only [List.nil_append, List.cons.injEq, true_and] at h
    exact ⟨rfl, h⟩
  | [], b :: bs, u, v, _, hy, h => by
    exfalso
    simp only [List.nil_append, List.cons_append, List.cons.injEq] at h
    exact hy (by rw [h.1]; exact List.mem_cons_self b bs)
  | a :: as, [], u, v, hx, _, h => by
    exfalso
    simp only [List.cons_append, List.nil_append, List.cons.injEq] at h
    exact hx (by rw [← h.1]; exact List.mem_cons_self a as)
  | a :: as, b :: bs, u, v, hx, hy, h => by
    simp only [List.cons_append, List.cons.injEq] at h
    have ih := dotfree_align as bs u v (fun hm => hx (List.mem_cons_of_mem a hm))
      (fun hm => hy (List.mem_cons_of_mem b hm)) h.2
    exact ⟨by rw [h.1, ih.1], ih.2⟩

/-- A false four-way disjunction has all four components false. -/
theorem or4_false {a b c d : Bool} (h : (a || b || c || d) = false) :
    a = false ∧ b = false ∧ c = false ∧ d = false := by
  cases a <;> cases b <;> cases c <;> cases d <;> simp_all

/-- The classifier rejects every canonical public dotted-quad address. -/
theorem specPublic_rejected (s : String) (h : specPublicAddr s = true) :
    isPrivate s = false := by
  unfold specPublicAddr at h
  split at h
  case h_2 => exact absurd h (by decide)
  case h_1 da db dc dd heq =>
  rw [Bool.and_eq_true, Bool.and_eq_true, Bool.and_eq_true, Bool.and_eq_true,
    Bool.not_eq_true'] at h
  obtain ⟨⟨⟨⟨hoa, hob⟩, hoc⟩, hod⟩, hnotneg⟩ := h
  obtain ⟨hr1, hr2, hr3, hr4⟩ := or4_false hnotneg
  have hsdata : s.data = da ++ '.' :: (db ++ '.' :: (dc ++ '.' :: dd)) := by
    conv_lhs => rw [← joinSep_splitOnChar '.' s.data, heq]
    rfl
  have hda := specOctet_digits hoa
  have hdb := specOctet_digits hob
  have hda_df : '.' ∈ da → False := fun hm => absurd (hda.2 '.' hm) (by decide)
  have hdb_df : '.' ∈ db → False := fun hm => absurd (hdb.2 '.' hm) (by decide)
  have hhead : ∀ c0 tl, s.data = c0 :: tl → c0.isDigit = true := by
    intro c0 tl hh
    cases hd0 : da with
    | nil => exact absurd hd0 hda.1
    | cons a0 as0 =>
      rw [hd0] at hsdata
      have : c0 = a0 := by
        have := hh.symm.trans hsdata
        exact (List.cons.injEq _ _ _ _ ▸ this).1
      rw [this]
      exact hda.2 a0 (hd0 ▸ List.mem_cons_self a0 as0)
  by_contra hcon
  rw [Bool.not_eq_false] at hcon
  rcases (isPrivate_iff_shape s).mp hcon with hsh | ⟨q, t, hqt, hq, _⟩
  · rcases hsh with ⟨t, ht⟩ | ⟨d1, d2, t, ht, hcond⟩ | ⟨t, ht⟩ | ⟨t, ht⟩ |
      (h5 | ⟨c, t, ht, _⟩)
    · have ha := dotfree_align da ['1', '0'] _ t hda_df (by decide)
        (hsdata.symm.trans ht)
      rw [ha.1] at hr1
      exact absurd hr1 (by decide)
    · have ha := dotfree_align da ['1', '7', '2'] _ ([d1, d2] ++ '.' :: t) hda_df
        (by decide) (hsdata.symm.trans ht)
      have hd1 : d1 = '.' → False := by
        rcases hcond with ⟨rfl, _, _⟩ | ⟨rfl, _⟩ | ⟨rfl, _⟩ <;> exact fun he => by cases he
      have hd2 : d2 = '.' → False := by
        rcases hcond with ⟨_, h6, _⟩ | ⟨_, hdig⟩ | ⟨_, h01⟩
        · intro he
          rw [he] at h6
          exact absurd h6 (by decide)
        · intro he
          rw [he] at hdig
          exact absurd hdig (by decide)
        · rcases h01 with rfl | rfl <;> exact fun he => by cases he
      have hdb12_df : '.' ∈ ([d1, d2] : List Char) → False := by
        intro hm
        rcases List.mem_cons.mp hm with he | hm2
        · exact hd1 he.symm
        · rcases List.mem_cons.mp hm2 with he | hm3
          · exact hd2 he.symm
          · cases hm3
      have hb := dotfree_align db [d1, d2] _ t hdb_df hdb12_df ha.2
      rw [ha.1, hb.1] at hr4
      rw [show ((⟨['1', '7', '2']⟩ : String) == "172") = true from by decide,
        Bool.true_and] at hr4
      rcases hcond with ⟨rfl, h6, h9⟩ | ⟨rfl, hdig⟩ | ⟨rfl, h01⟩
      · rcases char_between_6_9 h6 h9 with rfl | rfl | rfl | rfl <;>
          exact absurd hr4 (by decide)
      · rcases char_digit_enum hdig with
          rfl | rfl | rfl | rfl | rfl | rfl | rfl | rfl | rfl | rfl <;>
          exact absurd hr4 (by decide)
      · rcases h01 with rfl | rfl <;> exact absurd hr4 (by decide)
    · have ha := dotfree_align da ['1', '9', '2'] _ (['1', '6', '8'] ++ '.' :: t)
        hda_df (by decide) (hsdata.symm.trans ht)
      have hb := dotfree_align db ['1', '6', '8'] _ t hdb_df (by decide) ha.2
      rw [ha.1, hb.1] at hr3
      exact absurd hr3 (by decide)
    · have ha := dotfree_align da ['1', '2', '7'] _ t hda_df (by decide)
        (hsdata.symm.trans ht)
      rw [ha.1] at hr2
      exact absurd hr2 (by decide)
    · exact absurd (hhead ':' [':', '1'] h5) (by decide)
    · exact absurd (hhead ':' (':' :: '1' :: c :: t) ht) (by decide)
  · cases hq0 : q with
    | nil =>
      rw [hq0] at hq
      exact absurd hq (by decide)
    | cons q0 qs =>
      rw [hq0] at hq hqt
      have hq0c : charLower q0 = ':' := by
        have := hq
        rw [show ("::ffff:".data : List Char) =
          ':' :: ':' :: 'f' :: 'f' :: 'f' :: 'f' :: ':' :: [] from rfl] at this
        simp only [List.map_cons, List.cons.injEq] at this
        exact this.1
      have : q0 = ':' := charLower_fixed_inv (by decide) q0 hq0c
      rw [this] at hqt
      exact absurd (hhead ':' (qs ++ t) hqt) (by decide)

/-- C7 (counterexample): the claim's "returns false otherwise (malformed
strings simply fail to match)" is refuted: `10.banana` is not an address of
any listed range (the spec-modelled predicate rejects it), yet the code's
prefix-based classifier accepts it. -/
theorem private_classifier_counterexample :
    isPrivate "10.banana" = true ∧ specPrivateAddr "10.banana" = false := by
  decide

/-- C7 (amended): the classifier accepts exactly the strings that — after an
optional case-insensitive `::ffff:` prefix — begin with `10.`, `127.`,
`192.168.`, or `172.` followed by a second component `1[6-9]`, `2<digit>` or
`3[01]` and a dot, or begin with `::1` at a word boundary (`privShape`);
consequently every spec-recognised private address (canonical RFC1918 and
loopback quads and `::1`, optionally `::ffff:`-prefixed) is accepted and
every canonical public dotted-quad address is rejected, while a malformed
string with a private-looking prefix (e.g. `10.banana`) is also accepted. -/
theorem private_classifier_amended :
    (∀ s : String, isPrivate s = true ↔
      (privShape s.data ∨
       ∃ q t, s.data = q ++ t ∧ q.map charLower = "::ffff:".data ∧ privShape t)) ∧
    (∀ s : String, specPrivateAddr s = true → isPrivate s = true) ∧
    (∀ s : String, specPublicAddr s = true → isPrivate s = false) ∧
    isPrivate "10.banana" = true :=
  ⟨isPrivate_iff_shape, specPrivate_sound, specPublic_rejected, by decide⟩

/-- Witness for `private_classifier_amended` at concrete inputs: `::1:5` is
accepted through the word-boundary shape, `10.0.0.5` through spec-private
soundness, and the public `203.0.113.5` is rejected. -/
theorem private_classifier_amended_witness :
    isPrivate "::1:5" = true ∧ isPrivate "10.0.0.5" = true ∧
    isPrivate "203.0.113.5" = false :=
  ⟨(private_classifier_amended.1 "::1:5").mpr
      (Or.inl (Or.inr (Or.inr (Or.inr (Or.inr
        (Or.inr ⟨':', ['5'], rfl, by decide⟩)))))),
   private_classifier_amended.2.1 "10.0.0.5" (by decide),
   private_classifier_amended.2.2.1 "203.0.113.5" (by decide)⟩

/-! ### Claims C6 and C9: cache behaviour and idempotence -/

theorem pcKey_ne_iiKey (ip : String) : ("ipinfo:" ++ ip) ≠ ("proxycheck:" ++ ip) := by
  intro h
  have h2 := congrArg (fun t => t.data.headD ' ') h
  simp [String.data_append] at h2

theorem cacheFind_delete_other {k k' : String} (h : k' ≠ k) (c : Cache) :
    cacheFind k' (cacheDelete k c) = cacheFind k' c := by
  induction c with
  | nil => rfl
  | cons hd tl ih =>
    obtain ⟨kk, e⟩ := hd
    by_cases hk : kk = k
    · have h1 : cacheDelete k ((kk, e) :: tl) = cacheDelete k tl := by
        simp [cacheDelete, hk]
      have h2 : cacheFind k' ((kk, e) :: tl) = cacheFind k' tl := by
        simp only [cacheFind]
        rw [if_neg (fun hh => h (hh.symm.trans hk))]
      rw [h1, ih, h2]
    · have h1 : cacheDelete k ((kk, e) :: tl) = (kk, e) :: cacheDelete k tl := by
        simp [cacheDelete, hk]
      rw [h1]
      unfold cacheFind
      by_cases hk' : kk = k'
      · rw [if_pos hk', if_pos hk']
      · rw [if_neg hk', if_neg hk']
        exact ih

theorem cacheFind_set_same (k : String) (v : CacheValue) (ttl now : Nat) (c : Cache) :
    cacheFind k (cacheSet k v ttl now c) = some ⟨v, now + ttl⟩ := by
  simp only [cacheSet, cacheFind]
  simp

theorem cacheFind_set_other {k k' : String} (h : k' ≠ k) (v : CacheValue)
    (ttl now : Nat) (c : Cache) :
    cacheFind k' (cacheSet k v ttl now c) = cacheFind k' c := by
  simp only [cacheSet, cacheFind]
  rw [if_neg (fun hh => h hh.symm)]
  exact cacheFind_delete_other h c

theorem cacheGet_of_find_none {now : Nat} {k : String} {c : Cache}
    (hf : cacheFind k c = none) : cacheGet now k c = (none, c) := by
  simp only [cacheGet, hf]

theorem cacheGet_of_find_live {now : Nat} {k : String} {c : Cache} {e : CacheEntry}
    (hf : cacheFind k c = some e) (hlive : ¬ now > e.expiresAt) :
    cacheGet now k c = (some e.value, c) := by
  simp only [cacheGet, hf]
  rw [if_neg hlive]

theorem cacheGet_of_find_expired {now : Nat} {k : String} {c : Cache} {e : CacheEntry}
    (hf : cacheFind k c = some e) (hexp : now > e.expiresAt) :
    cacheGet now k c = (none, cacheDelete k c) := by
  simp only [cacheGet, hf]
  rw [if_pos hexp]

/-- A guarded inner `if` over an already-decided condition collapses. -/
theorem ite_decide_absorb {P : Prop} [Decidable P] (x : List String) :
    (if decide P = true then (if P then x else []) else []) = if P then x else [] := by
  by_cases h : P <;> simp [h]

theorem cacheGet_snd_find_other {now : Nat} {k k' : String} {C : Cache} (h : k' ≠ k) :
    cacheFind k' (cacheGet now k C).2 = cacheFind k' C := by
  simp only [cacheGet]
  cases hf : cacheFind k C with
  | none => simp
  | some e =>
    by_cases hexp : now > e.expiresAt
    · simp [hexp, cacheFind_delete_other h]
    · simp [hexp]

/-- The main branch of `detectProxyOrVpn`, written out. -/
theorem detect_main (inp : DetectInput) (env : Env) (world : World) (now : Nat)
    (cache : Cache) (h1 : inp.ip ≠ "") (h2 : inp.ip ≠ "unknown") :
    detectProxyOrVpn inp env world now cache =
      { out := { isProxy := (heurReasons inp ++ (pcStep inp.ip world.pcResp now cache).reasons ++
                   (iiStep inp.ip env.ipinfoToken world.iiResp now
                     (pcStep inp.ip world.pcResp now cache).cache).reasons).any isProxyReason
                 isVPN := (heurReasons inp ++ (pcStep inp.ip world.pcResp now cache).reasons ++
                   (iiStep inp.ip env.ipinfoToken world.iiResp now
                     (pcStep inp.ip world.pcResp now cache).cache).reasons).any isVpnReason
                 reasons := heurReasons inp ++ (pcStep inp.ip world.pcResp now cache).reasons ++
                   (iiStep inp.ip env.ipinfoToken world.iiResp now
                     (pcStep inp.ip world.pcResp now cache).cache).reasons
                 ipinfo := ipinfoProj inp.ip (iiStep inp.ip env.ipinfoToken world.iiResp now
                   (pcStep inp.ip world.pcResp now cache).cache).ipinfo
                 note := some (noteFor env.ipinfoToken) }
        cache := (iiStep inp.ip env.ipinfoToken world.iiResp now
          (pcStep inp.ip world.pcResp now cache).cache).cache
        pcCalled := (pcStep inp.ip world.pcResp now cache).called
        iiCalled := (iiStep inp.ip env.ipinfoToken world.iiResp now
          (pcStep inp.ip world.pcResp now cache).cache).called } := by
  unfold detectProxyOrVpn
  rw [if_neg (by tauto)]

/-- A fresh successful proxycheck call on a cold cache. -/
theorem pcStep_empty_some (ip : String) (info : PCInfo) (now : Nat) :
    pcStep ip (some info) now [] =
      ⟨if info.proxy = some "yes" then [pcTag info] else [],
       if info.proxy = some "yes" then some (pcTag info) else none,
       [("proxycheck:" ++ ip,
         ⟨CacheValue.pc ⟨decide (info.proxy = some "yes"),
           if info.proxy = some "yes" then [pcTag info] else [],
           if info.proxy = some "yes" then some (pcTag info) else none⟩, now + 60000⟩)],
       true⟩ := rfl

/-- A failed proxycheck call on a cold cache populates nothing. -/
theorem pcStep_empty_none (ip : String) (now : Nat) :
    pcStep ip none now [] = ⟨[], none, [], true⟩ := rfl

/-- A live cached proxycheck entry short-circuits the call and replays the
stored reasons. -/
theorem pcStep_hit_replay (ip : String) (resp : Option PCInfo) (now2 : Nat)
    (info : PCInfo) (exp : Nat) (C : Cache)
    (hf : cacheFind ("proxycheck:" ++ ip) C =
      some ⟨CacheValue.pc ⟨decide (info.proxy = some "yes"),
        if info.proxy = some "yes" then [pcTag info] else [],
        if info.proxy = some "yes" then some (pcTag info) else none⟩, exp⟩)
    (hlive : ¬ now2 > exp) :
    pcStep ip resp now2 C =
      ⟨if info.proxy = some "yes" then [pcTag info] else [],
       if info.proxy = some "yes" then some (pcTag info) else none, C, false⟩ := by
  have hg := cacheGet_of_find_live hf hlive
  simp only [pcStep, hg]
  simp [CacheValue.asPc, ite_decide_absorb]

/-- A cache miss always issues the proxycheck call. -/
theorem pcStep_miss_called (ip : String) (resp : Option PCInfo) (now : Nat) (C : Cache)
    (hf2 : (cacheGet now ("proxycheck:" ++ ip) C).1 = none) :
    (pcStep ip resp now C).called = true := by
  cases hc : cacheGet now ("proxycheck:" ++ ip) C with
  | mk a b =>
    rw [hc] at hf2
    simp only at hf2
    subst hf2
    simp only [pcStep, hc]
    cases resp <;> rfl

/-- The proxycheck block never disturbs entries under other keys. -/
theorem pcStep_cache_find_other (ip : String) (resp : Option PCInfo) (now : Nat)
    (C : Cache) (k' : String) (hk' : k' ≠ "proxycheck:" ++ ip) :
    cacheFind k' (pcStep ip resp now C).cache = cacheFind k' C := by
  have hsnd := @cacheGet_snd_find_other now ("proxycheck:" ++ ip) k' C hk'
  cases hc : cacheGet now ("proxycheck:" ++ ip) C with
  | mk a b =>
    rw [hc] at hsnd
    simp only at hsnd
    simp only [pcStep, hc]
    cases a with
    | some v => simpa using hsnd
    | none =>
      cases resp with
      | none => simpa using hsnd
      | some info =>
        simp only []
        rw [cacheFind_set_other hk']
        exact hsnd

/-- The ipinfo block with no configured token is a no-op. -/
theorem iiStep_off (ip : String) (token : Option String) (resp : Option IpinfoJson)
    (now : Nat) (C : Cache) (ht : envTruthy token = false) :
    iiStep ip token resp now C = ⟨[], none, C, false⟩ := by
  simp [iiStep, ht]

/-- A fresh successful ipinfo call on a missing key. -/
theorem iiStep_miss_fetch (ip : String) (token : Option String) (j : IpinfoJson)
    (now : Nat) (C : Cache) (ht : envTruthy token = true)
    (hf : cacheFind ("ipinfo:" ++ ip) C = none) :
    iiStep ip token (some j) now C =
      ⟨hostingReasons (some j), some j,
       cacheSet ("ipinfo:" ++ ip) (CacheValue.ii j) 60000 now C, true⟩ := by
  have hg := @cacheGet_of_find_none now ("ipinfo:" ++ ip) C hf
  simp [iiStep, ht, hg]

/-- A failed ipinfo call on a missing key populates nothing. -/
theorem iiStep_miss_nofetch (ip : String) (token : Option String)
    (now : Nat) (C : Cache) (ht : envTruthy token = true)
    (hf : cacheFind ("ipinfo:" ++ ip) C = none) :
    iiStep ip token none now C = ⟨[], none, C, true⟩ := by
  have hg := @cacheGet_of_find_none now ("ipinfo:" ++ ip) C hf
  simp [iiStep, ht, hg]

/-- A live cached ipinfo entry short-circuits the call and replays the
stored JSON. -/
theorem iiStep_hit (ip : String) (token : Option String) (resp : Option IpinfoJson)
    (now2 : Nat) (j : IpinfoJson) (exp : Nat) (C : Cache)
    (ht : envTruthy token = true)
    (hf : cacheFind ("ipinfo:" ++ ip) C = some ⟨CacheValue.ii j, exp⟩)
    (hlive : ¬ now2 > exp) :
    iiStep ip token resp now2 C = ⟨hostingReasons (some j), some j, C, false⟩ := by
  have hg := cacheGet_of_find_live hf hlive
  simp [iiStep, ht, hg, CacheValue.asIi]

/-- A cache miss with a configured token always issues the ipinfo call. -/
theorem iiStep_miss_called (ip : String) (token : Option String)
    (resp : Option IpinfoJson) (now : Nat) (C : Cache)
    (ht : envTruthy token = true)
    (hf2 : (cacheGet now ("ipinfo:" ++ ip) C).1 = none) :
    (iiStep ip token resp now C).called = true := by
  cases hc : cacheGet now ("ipinfo:" ++ ip) C with
  | mk a b =>
    rw [hc] at hf2
    simp only at hf2
    subst hf2
    simp only [iiStep, ht, if_true, hc]
    cases resp <;> rfl

/-- Two requests for the same IP, the first on a cold cache with successful
lookups, the second within the TTL window: the second issues no call and
replays the first request's reasons. -/
theorem detect_replay (inp : DetectInput) (env : Env) (world1 world2 : World)
    (info : PCInfo) (now1 now2 : Nat)
    (h1 : inp.ip ≠ "") (h2 : inp.ip ≠ "unknown")
    (hpc : world1.pcResp = some info)
    (hii : envTruthy env.ipinfoToken = true → ∃ j, world1.iiResp = some j)
    (httl : now2 ≤ now1 + 60000) :
    (detectProxyOrVpn inp env world2 now2
      (detectProxyOrVpn inp env world1 now1 []).cache).pcCalled = false ∧
    (detectProxyOrVpn inp env world2 now2
      (detectProxyOrVpn inp env world1 now1 []).cache).iiCalled = false ∧
    (detectProxyOrVpn inp env world2 now2
      (detectProxyOrVpn inp env world1 now1 []).cache).out.reasons =
      (detectProxyOrVpn inp env world1 now1 []).out.reasons := by
  rw [detect_main inp env world1 now1 [] h1 h2]
  rw [detect_main inp env world2 now2 _ h1 h2]
  simp only [hpc, pcStep_empty_some]
  have hfpc1 : cacheFind ("proxycheck:" ++ inp.ip)
      [("proxycheck:" ++ inp.ip,
        ⟨CacheValue.pc ⟨decide (info.proxy = some "yes"),
          if info.proxy = some "yes" then [pcTag info] else [],
          if info.proxy = some "yes" then some (pcTag info) else none⟩,
         now1 + 60000⟩)] = some
        ⟨CacheValue.pc ⟨decide (info.proxy = some "yes"),
          if info.proxy = some "yes" then [pcTag info] else [],
          if info.proxy = some "yes" then some (pcTag info) else none⟩,
         now1 + 60000⟩ := by
    simp [cacheFind]
  by_cases ht : envTruthy env.ipinfoToken = true
  · obtain ⟨j, hj⟩ := hii ht
    simp only [hj]
    have hfii1 : cacheFind ("ipinfo:" ++ inp.ip)
        [("proxycheck:" ++ inp.ip,
          ⟨CacheValue.pc ⟨decide (info.proxy = some "yes"),
            if info.proxy = some "yes" then [pcTag info] else [],
            if info.proxy = some "yes" then some (pcTag info) else none⟩,
           now1 + 60000⟩)] = none := by
      simp only [cacheFind]
      rw [if_neg (fun hh => pcKey_ne_iiKey inp.ip hh.symm)]
    rw [iiStep_miss_fetch inp.ip env.ipinfoToken j now1 _ ht hfii1]
    simp only []
    have hfpc2 : cacheFind ("proxycheck:" ++ inp.ip)
        (cacheSet ("ipinfo:" ++ inp.ip) (CacheValue.ii j) 60000 now1
          [("proxycheck:" ++ inp.ip,
            ⟨CacheValue.pc ⟨decide (info.proxy = some "yes"),
              if info.proxy = some "yes" then [pcTag info] else [],
              if info.proxy = some "yes" then some (pcTag info) else none⟩,
             now1 + 60000⟩)]) = some
          ⟨CacheValue.pc ⟨decide (info.proxy = some "yes"),
            if info.proxy = some "yes" then [pcTag info] else [],
            if info.proxy = some "yes" then some (pcTag info) else none⟩,
           now1 + 60000⟩ := by
      rw [cacheFind_set_other (Ne.symm (pcKey_ne_iiKey inp.ip))]
      exact hfpc1
    rw [pcStep_hit_replay inp.ip world2.pcResp now2 info (now1 + 60000) _ hfpc2 (by omega)]
    simp only []
    have hfii2 := cacheFind_set_same ("ipinfo:" ++ inp.ip) (CacheValue.ii j) 60000 now1
      [("proxycheck:" ++ inp.ip,
        ⟨CacheValue.pc ⟨decide (info.proxy = some "yes"),
          if info.proxy = some "yes" then [pcTag info] else [],
          if info.proxy = some "yes" then some (pcTag info) else none⟩,
         now1 + 60000⟩)]
    rw [iiStep_hit inp.ip env.ipinfoToken world2.iiResp now2 j (now1 + 60000) _ ht hfii2
      (by omega)]
    refine ⟨?_, ?_, ?_⟩ <;> first | rfl | trivial
  · have ht' : envTruthy env.ipinfoToken = false := by
      rw [Bool.not_eq_true] at ht
      exact ht
    rw [iiStep_off inp.ip env.ipinfoToken world1.iiResp now1 _ ht']
    simp only []
    rw [pcStep_hit_replay inp.ip world2.pcResp now2 info (now1 + 60000) _ hfpc1 (by omega)]
    simp only []
    rw [iiStep_off inp.ip env.ipinfoToken world2.iiResp now2 _ ht']
    refine ⟨?_, ?_, ?_⟩ <;> first | rfl | trivial

/-- The ipinfo block never disturbs entries under other keys. -/
theorem iiStep_cache_find_other (ip : String) (token : Option String)
    (resp : Option IpinfoJson) (now : Nat) (C : Cache) (k' : String)
    (hk' : k' ≠ "ipinfo:" ++ ip) :
    cacheFind k' (iiStep ip token resp now C).cache = cacheFind k' C := by
  by_cases ht : envTruthy token = true
  · have hsnd := @cacheGet_snd_find_other now ("ipinfo:" ++ ip) k' C hk'
    cases hc : cacheGet now ("ipinfo:" ++ ip) C with
    | mk a b =>
      rw [hc] at hsnd
      simp only at hsnd
      simp only [iiStep, ht, if_true, hc]
      cases a with
      | some v => simpa using hsnd
      | none =>
        cases resp with
        | none => simpa using hsnd
        | some j =>
          simp only []
          rw [cacheFind_set_other hk']
          exact hsnd
  · have ht' : envTruthy token = false := by
      rw [Bool.not_eq_true] at ht
      exact ht
    rw [iiStep_off ip token resp now C ht']

/-- C6 (counterexample): when the first request's proxycheck call fails,
nothing is cached, so a second request for the same IP well inside the
60-second window issues a second outbound call — the claim's "at most one
outbound network call" does not hold as stated. -/
theorem cache_single_call_counterexample :
    (detectProxyOrVpn ⟨"1.2.3.4", "", [], ""⟩ ⟨none, none⟩ ⟨none, none⟩ 0 []).pcCalled
        = true ∧
    (detectProxyOrVpn ⟨"1.2.3.4", "", [], ""⟩ ⟨none, none⟩ ⟨none, none⟩ 1000
      (detectProxyOrVpn ⟨"1.2.3.4", "", [], ""⟩ ⟨none, none⟩ ⟨none, none⟩ 0 []).cache).pcCalled
        = true := by
  decide

/-- C6 (amended): provided the first request's lookups answered successfully,
a second request for the same IP within the 60-second TTL window consults
the cache keyed `<lookup-kind>:<ip>`, short-circuits both outbound calls and
replays the previously derived reason tags; after TTL expiry the entry is
treated as absent and fresh calls are issued; and the cache is populated
only after a successful response — a failed lookup caches nothing and is
retried by the next request. -/
theorem cache_ttl_amended (inp : DetectInput) (env : Env) (world1 world2 : World)
    (info : PCInfo) (now1 now2 : Nat)
    (h1 : inp.ip ≠ "") (h2 : inp.ip ≠ "unknown")
    (hpc : world1.pcResp = some info)
    (hii : envTruthy env.ipinfoToken = true → ∃ j, world1.iiResp = some j) :
    (now2 ≤ now1 + 60000 →
      (detectProxyOrVpn inp env world2 now2
        (detectProxyOrVpn inp env world1 now1 []).cache).pcCalled = false ∧
      (detectProxyOrVpn inp env world2 now2
        (detectProxyOrVpn inp env world1 now1 []).cache).iiCalled = false ∧
      (detectProxyOrVpn inp env world2 now2
        (detectProxyOrVpn inp env world1 now1 []).cache).out.reasons =
        (detectProxyOrVpn inp env world1 now1 []).out.reasons) ∧
    (now2 > now1 + 60000 →
      (detectProxyOrVpn inp env world2 now2
        (detectProxyOrVpn inp env world1 now1 []).cache).pcCalled = true ∧
      (envTruthy env.ipinfoToken = true →
        (detectProxyOrVpn inp env world2 now2
          (detectProxyOrVpn inp env world1 now1 []).cache).iiCalled = true)) ∧
    ((detectProxyOrVpn inp env ⟨none, none⟩ now1 []).cache = [] ∧
     (detectProxyOrVpn inp env ⟨none, none⟩ now1 []).pcCalled = true) := by
  refine ⟨fun httl => detect_replay inp env world1 world2 info now1 now2 h1 h2 hpc hii httl,
    fun hexp => ?_, ?_⟩
  · rw [detect_main inp env world1 now1 [] h1 h2]
    rw [detect_main inp env world2 now2 _ h1 h2]
    simp only [hpc, pcStep_empty_some]
    have hfpc1 : cacheFind ("proxycheck:" ++ inp.ip)
        [("proxycheck:" ++ inp.ip,
          ⟨CacheValue.pc ⟨decide (info.proxy = some "yes"),
            if info.proxy = some "yes" then [pcTag info] else [],
            if info.proxy = some "yes" then some (pcTag info) else none⟩,
           now1 + 60000⟩)] = some
          ⟨CacheValue.pc ⟨decide (info.proxy = some "yes"),
            if info.proxy = some "yes" then [pcTag info] else [],
            if info.proxy = some "yes" then some (pcTag info) else none⟩,
           now1 + 60000⟩ := by
      simp [cacheFind]
    constructor
    · apply pcStep_miss_called
      have hfind : cacheFind ("proxycheck:" ++ inp.ip)
          (iiStep inp.ip env.ipinfoToken world1.iiResp now1
            [("proxycheck:" ++ inp.ip,
              ⟨CacheValue.pc ⟨decide (info.proxy = some "yes"),
                if info.proxy = some "yes" then [pcTag info] else [],
                if info.proxy = some "yes" then some (pcTag info) else none⟩,
               now1 + 60000⟩)]).cache = some
            ⟨CacheValue.pc ⟨decide (info.proxy = some "yes"),
              if info.proxy = some "yes" then [pcTag info] else [],
              if info.proxy = some "yes" then some (pcTag info) else none⟩,
             now1 + 60000⟩ := by
        rw [iiStep_cache_find_other inp.ip env.ipinfoToken world1.iiResp now1 _ _
          (Ne.symm (pcKey_ne_iiKey inp.ip))]
        exact hfpc1
      have hget := cacheGet_of_find_expired hfind (show now2 > now1 + 60000 from hexp)
      rw [hget]
    · intro ht
      obtain ⟨j, hj⟩ := hii ht
      simp only [hj]
      have hfii1 : cacheFind ("ipinfo:" ++ inp.ip)
          [("proxycheck:" ++ inp.ip,
            ⟨CacheValue.pc ⟨decide (info.proxy = some "yes"),
              if info.proxy = some "yes" then [pcTag info] else [],
              if info.proxy = some "yes" then some (pcTag info) else none⟩,
             now1 + 60000⟩)] = none := by
        simp only [cacheFind]
        rw [if_neg (fun hh => pcKey_ne_iiKey inp.ip hh.symm)]
      rw [iiStep_miss_fetch inp.ip env.ipinfoToken j now1 _ ht hfii1]
      apply iiStep_miss_called inp.ip env.ipinfoToken world2.iiResp now2 _ ht
      have hfind2 : cacheFind ("ipinfo:" ++ inp.ip)
          (pcStep inp.ip world2.pcResp now2
            (cacheSet ("ipinfo:" ++ inp.ip) (CacheValue.ii j) 60000 now1
              [("proxycheck:" ++ inp.ip,
                ⟨CacheValue.pc ⟨decide (info.proxy = some "yes"),
                  if info.proxy = some "yes" then [pcTag info] else [],
                  if info.proxy = some "yes" then some (pcTag info) else none⟩,
                 now1 + 60000⟩)])).cache = some ⟨CacheValue.ii j, now1 + 60000⟩ := by
        rw [pcStep_cache_find_other inp.ip world2.pcResp now2 _ _ (pcKey_ne_iiKey inp.ip)]
        exact cacheFind_set_same ("ipinfo:" ++ inp.ip) (CacheValue.ii j) 60000 now1 _
      have hget2 := cacheGet_of_find_expired hfind2 (show now2 > now1 + 60000 from hexp)
      rw [hget2]
  · rw [detect_main inp env ⟨none, none⟩ now1 [] h1 h2]
    show ((iiStep inp.ip env.ipinfoToken none now1
      (pcStep inp.ip none now1 []).cache).cache = []) ∧
      ((pcStep inp.ip none now1 []).called = true)
    rw [pcStep_empty_none]
    by_cases ht : envTruthy env.ipinfoToken = true
    · rw [iiStep_miss_nofetch inp.ip env.ipinfoToken now1 [] ht rfl]
      exact ⟨rfl, rfl⟩
    · have ht' : envTruthy env.ipinfoToken = false := by
        rw [Bool.not_eq_true] at ht
        exact ht
      rw [iiStep_off inp.ip env.ipinfoToken none now1 [] ht']
      exact ⟨rfl, rfl⟩

/-- Witness for `cache_ttl_amended`: a concrete IP, a successful first pair
of lookups, and a second request 30 s later. -/
theorem cache_ttl_amended_witness :
    (detectProxyOrVpn ⟨"5.6.7.8", "", [], ""⟩ ⟨none, some "tk"⟩ ⟨none, none⟩ 30000
      (detectProxyOrVpn ⟨"5.6.7.8", "", [], ""⟩ ⟨none, some "tk"⟩
        ⟨some ⟨some "yes", some "VPN"⟩, some ⟨some "5.6.7.8", some "Hetzner Online GmbH", some "DE"⟩⟩
        0 []).cache).pcCalled = false ∧
    (detectProxyOrVpn ⟨"5.6.7.8", "", [], ""⟩ ⟨none, some "tk"⟩ ⟨none, none⟩ 30000
      (detectProxyOrVpn ⟨"5.6.7.8", "", [], ""⟩ ⟨none, some "tk"⟩
        ⟨some ⟨some "yes", some "VPN"⟩, some ⟨some "5.6.7.8", some "Hetzner Online GmbH", some "DE"⟩⟩
        0 []).cache).iiCalled = false ∧
    (detectProxyOrVpn ⟨"5.6.7.8", "", [], ""⟩ ⟨none, some "tk"⟩ ⟨none, none⟩ 30000
      (detectProxyOrVpn ⟨"5.6.7.8", "", [], ""⟩ ⟨none, some "tk"⟩
        ⟨some ⟨some "yes", some "VPN"⟩, some ⟨some "5.6.7.8", some "Hetzner Online GmbH", some "DE"⟩⟩
        0 []).cache).out.reasons =
      (detectProxyOrVpn ⟨"5.6.7.8", "", [], ""⟩ ⟨none, some "tk"⟩
        ⟨some ⟨some "yes", some "VPN"⟩, some ⟨some "5.6.7.8", some "Hetzner Online GmbH", some "DE"⟩⟩
        0 []).out.reasons :=
  (cache_ttl_amended ⟨"5.6.7.8", "", [], ""⟩ ⟨none, some "tk"⟩
    ⟨some ⟨some "yes", some "VPN"⟩, some ⟨some "5.6.7.8", some "Hetzner Online GmbH", some "DE"⟩⟩
    ⟨none, none⟩ ⟨some "yes", some "VPN"⟩ 0 30000
    (by decide) (by decide) rfl
    (fun _ => ⟨⟨some "5.6.7.8", some "Hetzner Online GmbH", some "DE"⟩, rfl⟩)).1 (by decide)

/-- C9: the pipeline is deterministic up to timing — with identical inputs
and the same external lookup responses, whether those are obtained fresh on
a cold cache or replayed from the cache within the TTL window, the reasons
list is identical element-for-element and in order, and both verdict
booleans coincide. -/
theorem detect_idempotent (inp : DetectInput) (env : Env) (world1 world2 : World)
    (info : PCInfo) (now1 now2 : Nat)
    (h1 : inp.ip ≠ "") (h2 : inp.ip ≠ "unknown")
    (hpc : world1.pcResp = some info)
    (hii : envTruthy env.ipinfoToken = true → ∃ j, world1.iiResp = some j)
    (httl : now2 ≤ now1 + 60000) :
    (detectProxyOrVpn inp env world2 now2
      (detectProxyOrVpn inp env world1 now1 []).cache).out.reasons =
      (detectProxyOrVpn inp env world1 now1 []).out.reasons ∧
    (detectProxyOrVpn inp env world2 now2
      (detectProxyOrVpn inp env world1 now1 []).cache).out.isProxy =
      (detectProxyOrVpn inp env world1 now1 []).out.isProxy ∧
    (detectProxyOrVpn inp env world2 now2
      (detectProxyOrVpn inp env world1 now1 []).cache).out.isVPN =
      (detectProxyOrVpn inp env world1 now1 []).out.isVPN := by
  have h := detect_replay inp env world1 world2 info now1 now2 h1 h2 hpc hii httl
  refine ⟨h.2.2, ?_, ?_⟩
  · rw [detect_isProxy_spec, detect_isProxy_spec, h.2.2]
  · rw [detect_isVPN_spec, detect_isVPN_spec, h.2.2]

/-- Witness for `detect_idempotent` at a concrete request pair. -/
theorem detect_idempotent_witness :
    (detectProxyOrVpn ⟨"9.9.9.9", "", [], ""⟩ ⟨none, none⟩ ⟨none, none⟩ 59999
      (detectProxyOrVpn ⟨"9.9.9.9", "", [], ""⟩ ⟨none, none⟩
        ⟨some ⟨some "yes", some "VPN"⟩, none⟩ 0 []).cache).out.reasons =
      (detectProxyOrVpn ⟨"9.9.9.9", "", [], ""⟩ ⟨none, none⟩
        ⟨some ⟨some "yes", some "VPN"⟩, none⟩ 0 []).out.reasons :=
  (detect_idempotent ⟨"9.9.9.9", "", [], ""⟩ ⟨none, none⟩
    ⟨some ⟨some "yes", some "VPN"⟩, none⟩ ⟨none, none⟩ ⟨some "yes", some "VPN"⟩ 0 59999
    (by decide) (by decide) rfl (fun hcontra => absurd hcontra (by decide))
    (by decide)).1

end ProxySpeedTest
